import Mathlib

/-!
Shallow embedding of the address-sorter ROE rule engine
(`address_sorter.py`) and proofs about its behaviour.

Modelling conventions:
* a pandas row is a `Record`; a missing value (`NaN`) in an optional
  column is `none`;
* cell contents are modelled as the strings pandas hands to `str(...)`;
* float threshold comparisons such as `x / n > 0.8` are modelled by the
  exact rational comparison (`5 * x > 4 * n`), which agrees with the
  float computation at all realistic community sizes;
* Python `str.upper`/`str.isdigit` are modelled on ASCII, which covers
  every string the engine compares against.
-/

namespace AddressSorter

/-- Occurrence of `pat` as a contiguous sublist of `l`. -/
def listContainsSub (pat : List Char) : List Char → Bool
  | [] => pat.isEmpty
  | c :: t => pat.isPrefixOf (c :: t) || listContainsSub pat t

/-- Python substring test `pat in s`. -/
def strContainsSub (s pat : String) : Bool := listContainsSub pat.data s.data

/-- Python `str.upper()` (ASCII model). -/
def strUpper (s : String) : String := String.mk (s.data.map Char.toUpper)

/-- Python `str.strip()`: drop leading and trailing whitespace. -/
def strTrim (s : String) : String :=
  String.mk (((s.data.dropWhile Char.isWhitespace).reverse.dropWhile Char.isWhitespace).reverse)

/-- Python `str.startswith(pat)`. -/
def strStartsWith (s pat : String) : Bool := pat.data.isPrefixOf s.data

/-- Python `re.match(r'^\d+$', s)` as a boolean: non-empty and all digits. -/
def strAllDigits (s : String) : Bool := !s.data.isEmpty && s.data.all Char.isDigit

/-- Lexicographic order on code points. -/
def charListLe : List Char → List Char → Bool
  | [], _ => true
  | _ :: _, [] => false
  | a :: as, b :: bs =>
    if a.toNat < b.toNat then true
    else if b.toNat < a.toNat then false
    else charListLe as bs

/-- Python string `<=` (code-point lexicographic). -/
def strLe (a b : String) : Bool := charListLe a.data b.data

/-- Python `any(k in s for k in kws)`. -/
def containsAnyKw (s : String) (kws : List String) : Bool :=
  kws.any (fun k => strContainsSub s k)

/-- One input row.  `idx` is the pandas index label (unique per row);
`bt` is the `Building Type` column, `subname` the (already
sentinel-filled) `Subname` column. -/
structure Record where
  idx : Nat
  street : Option String
  unit : Option String
  plus4 : Option String
  zip : Option String
  bt : String
  subname : String
  streetName : Option String
deriving DecidableEq, Repr

/-- `AddressSorter.detect_unit_anomalies`. -/
def detect_unit_anomalies (u : Option String) : Option String :=
  match u with
  | none => none
  | some v =>
    let s := strTrim (strUpper v)
    if containsAnyKw s ["OFC", "OFFICE", "CLUBHOUSE", "LEASING", "CLUB"] then
      some "office_indicator"
    else if strContainsSub s "STE" || strContainsSub s "SUITE" then
      some "suite_indicator"
    else none

/-- `AddressSorter.get_unit_format_type`. -/
def get_unit_format_type (u : Option String) : String :=
  match u with
  | none => "no_unit"
  | some v =>
    let s := strUpper (strTrim v)
    if strStartsWith s "UNIT" then "unit_format"
    else if strStartsWith s "APT" then "apt_format"
    else if strAllDigits s then "number_only"
    else if strStartsWith s "STE" then "ste_format"
    else if strContainsSub s "BLDG" || strContainsSub s "BUILDING" then "building_format"
    else if strStartsWith s "#" && strContainsSub s "B-" then "hash_b_format"
    else if strStartsWith s "#" then "hash_format"
    else "other_format"

def allFormatTags : List String :=
  ["no_unit", "unit_format", "apt_format", "number_only", "ste_format",
   "building_format", "hash_b_format", "hash_format", "other_format"]

/-- First-occurrence deduplication: the distinct elements of `l` in order
of first appearance (models iteration order of a Python `Counter`). -/
def firstOccs {α : Type} [DecidableEq α] : List α → List α
  | [] => []
  | x :: xs => x :: (firstOccs xs).filter (fun y => !(decide (y = x)))

/-- Number of occurrences of `x` in `l` (a `Counter` lookup). -/
def countOcc (l : List String) (x : String) : Nat :=
  (l.filter (fun y => decide (y = x))).length

/-- First key (in list order) attaining the maximal count: models both
`max(d, key=d.get)` and `Counter.most_common(1)[0][0]`, whose ties go to
the first-inserted key. -/
def argmaxFirst (keys : List String) (cnt : String → Nat) : Option String :=
  keys.foldl
    (fun acc k =>
      match acc with
      | none => some k
      | some b => if cnt b < cnt k then some k else some b)
    none

/-- Insertion step of a straightforward insertion sort. -/
def insertSorted {α : Type} (le : α → α → Bool) (a : α) : List α → List α
  | [] => [a]
  | b :: l => if le a b then a :: b :: l else b :: insertSorted le a l

/-- Insertion sort; models the ascending key order of pandas `groupby`
(group keys are pairwise distinct, so stability is irrelevant there). -/
def sortByRel {α : Type} (le : α → α → Bool) : List α → List α
  | [] => []
  | a :: l => insertSorted le a (sortByRel le l)

/-- Stage 1: the rows surviving the unit-anomaly exclusion. -/
def roeDf1 (df : List Record) : List Record :=
  df.filter (fun r => (detect_unit_anomalies r.unit).isNone)

/-- Stage 1: the index labels dropped by the unit-anomaly exclusion. -/
def roeAnomIdxs (df : List Record) : List Nat :=
  (df.filter (fun r => (detect_unit_anomalies r.unit).isSome)).map (fun r => r.idx)

/-- The `Plus 4 Code` anomaly test for one row (5-digit extension, or
extension equal to the trimmed `Zip`, `''` when `Zip` is missing). -/
def plus4Anomalous (r : Record) : Bool :=
  match r.plus4 with
  | none => false
  | some p =>
    let ps := strTrim p
    let zs := match r.zip with | some z => strTrim z | none => ""
    (decide (ps.length = 5) && strAllDigits ps) || decide (ps = zs)

/-- Building types subject to the `Plus 4 Code` check. -/
def plus4Guard (bt : String) (hasPlus4 : Bool) : Bool :=
  (decide (bt = "HOA") || decide (bt = "Residential - MDU") || decide (bt = "SFA")) && hasPlus4

/-- Stage 2: `Plus 4 Code` anomaly exclusion.  `hasPlus4` models the
presence of the optional `Plus 4 Code` column.  Returns the surviving
rows and the dropped index labels. -/
def stage2 (bt : String) (hasPlus4 : Bool) (df1 : List Record) : List Record × List Nat :=
  if plus4Guard bt hasPlus4 then
    (df1.filter (fun r => !(plus4Anomalous r)),
     (df1.filter (fun r => plus4Anomalous r)).map (fun r => r.idx))
  else (df1, [])

/-- Stage 3: flag every row of an oversized (>800 rows) community. -/
def oversizeFlags (df2 : List Record) : List (Nat × String) :=
  if 800 < df2.length then
    df2.map (fun r =>
      (r.idx, "Community has " ++ toString df2.length ++ " addresses (>800 threshold)"))
  else []

/-- `Street Address` distinct-value count (`nunique`, NaN excluded). -/
def uniqueStreetCount (df : List Record) : Nat :=
  (firstOccs (df.filterMap (fun r => r.street))).length

/-- Count of rows with a non-missing `Unit Number`. -/
def withUnitsCount (df : List Record) : Nat :=
  (df.filter (fun r => r.unit.isSome)).length

/-- Stage 4 condo-style test: at most 3 distinct streets, strictly more
than 80% of rows with units, and more than 50 rows. -/
def isCondoStyle (df2 : List Record) : Bool :=
  decide (uniqueStreetCount df2 ≤ 3) &&
  decide (4 * df2.length < 5 * withUnitsCount df2) &&
  decide (50 < df2.length)

/-- Whether stage 6 applies the MDU dedup branch (declared MDU, or
condo-style detected on the stage-5 input). -/
def useMduPolicy (bt : String) (df2 : List Record) : Bool :=
  decide (bt = "Residential - MDU") || isCondoStyle df2

def standardFormats : List String := ["unit_format", "apt_format", "number_only"]

def anomalousFormats : List String :=
  ["ste_format", "building_format", "hash_b_format", "hash_format", "other_format"]

def isStandardFormat (f : String) : Bool :=
  decide (f = "unit_format") || decide (f = "apt_format") || decide (f = "number_only")

/-- Reason text attached by the stage-5 majority-format exclusion. -/
def mduFlagReason (f maj : String) : String :=
  if anomalousFormats.any (fun a => decide (a = f)) then
    "MDU anomalous format: " ++ f ++ " (standard is " ++ maj ++ ")"
  else
    "MDU minority format: " ++ f ++ " (majority is " ++ maj ++ ")"

/-- Stage 5 (MDU only): exclude-and-flag every row whose unit format is
neither `no_unit` nor the majority standard format.  Returns the
excluded index labels and the flag entries. -/
def mduStage (bt : String) (df2 : List Record) : List Nat × List (Nat × String) :=
  let allFormats := df2.map (fun r => get_unit_format_type r.unit)
  let fmts := firstOccs allFormats
  if decide (bt = "Residential - MDU") && decide (1 < fmts.length) then
    match argmaxFirst (fmts.filter isStandardFormat) (countOcc allFormats) with
    | some maj =>
      let bad := df2.filter (fun r =>
        !(decide (get_unit_format_type r.unit = maj)) &&
        !(decide (get_unit_format_type r.unit = "no_unit")))
      (bad.map (fun r => r.idx),
       bad.map (fun r => (r.idx, mduFlagReason (get_unit_format_type r.unit) maj)))
    | none => ([], [])
  else ([], [])

/-- Index labels of the rows of `g` without a unit. -/
def noUnitIdx (g : List Record) : List Nat :=
  (g.filter (fun r => r.unit.isNone)).map (fun r => r.idx)

/-- Index labels of the rows of `g` with a unit. -/
def withUnitIdx (g : List Record) : List Nat :=
  (g.filter (fun r => r.unit.isSome)).map (fun r => r.idx)

/-- Community-wide `percent_with_units >= 0.8` test used by the MDU
isolated-no-unit branch (exact rational model of the float test). -/
def pct80 (df3 : List Record) : Bool :=
  decide (0 < df3.length) && decide (4 * df3.length ≤ 5 * withUnitsCount df3)

/-- Stage 6 decision for one street-address group: keep list and remove
list of index labels. -/
def dedupGroup (useMdu p80 : Bool) (g : List Record) : List Nat × List Nat :=
  if useMdu then
    if !(noUnitIdx g).isEmpty && !(withUnitIdx g).isEmpty then (withUnitIdx g, noUnitIdx g)
    else if !(withUnitIdx g).isEmpty && (noUnitIdx g).isEmpty then (withUnitIdx g, [])
    else if !(noUnitIdx g).isEmpty && (withUnitIdx g).isEmpty then
      (if p80 then ([], noUnitIdx g) else (noUnitIdx g, []))
    else ([], [])
  else
    if !(noUnitIdx g).isEmpty && !(withUnitIdx g).isEmpty then (noUnitIdx g, withUnitIdx g)
    else if !(noUnitIdx g).isEmpty && (withUnitIdx g).isEmpty then (noUnitIdx g, [])
    else if (noUnitIdx g).isEmpty && !(withUnitIdx g).isEmpty then (withUnitIdx g, [])
    else ([], [])

/-- The sorted distinct street addresses of `df` (pandas `groupby` key
order; rows with a missing street are dropped by `groupby`). -/
def streetKeys (df : List Record) : List String :=
  sortByRel strLe (firstOccs (df.filterMap (fun r => r.street)))

/-- The `groupby('Street Address')` group of key `s`. -/
def streetGroup (df : List Record) (s : String) : List Record :=
  df.filter (fun r => decide (r.street = some s))

/-- Stage 6: street-level deduplication over all street groups. -/
def streetDedup (useMdu : Bool) (df3 : List Record) : List Nat × List Nat :=
  (((streetKeys df3).map (fun s => (dedupGroup useMdu (pct80 df3) (streetGroup df3 s)).1)).flatten,
   ((streetKeys df3).map (fun s => (dedupGroup useMdu (pct80 df3) (streetGroup df3 s)).2)).flatten)

/-- Stage 7 (non-MDU only): flag not-yet-assigned minority-format rows
when one format exceeds 80% of the stage-5 input (`df2`); the loop runs
over the stage-6 input (`df3`). -/
def postDedupFlags (bt : String) (df2 df3 : List Record) (keep rm : List Nat) :
    List (Nat × String) :=
  let allFormats := df2.map (fun r => get_unit_format_type r.unit)
  let fmts := firstOccs allFormats
  if !(decide (bt = "Residential - MDU")) && decide (1 < fmts.length) then
    match argmaxFirst fmts (countOcc allFormats) with
    | some maj =>
      if 4 * allFormats.length < 5 * countOcc allFormats maj then
        (df3.filter (fun r =>
          !(keep.any (fun j => decide (j = r.idx))) &&
          !(rm.any (fun j => decide (j = r.idx))) &&
          !(decide (get_unit_format_type r.unit = maj)) &&
          !(decide (get_unit_format_type r.unit = "no_unit")))).map
          (fun r =>
            (r.idx, "Minority unit format (" ++ get_unit_format_type r.unit ++
                    ") vs majority (" ++ maj ++ ")"))
      else []
    | none => []
  else []

/-- Stage 8: the one-off override.  Takes the stage-6 input and the
accumulated keep/remove lists; may move a single record to remove. -/
def oneOff (df3 : List Record) (keep rm : List Nat) :
    List Nat × List Nat × List (Nat × String) :=
  let total := df3.length
  let noUnits := df3.filter (fun r => r.unit.isNone)
  let noUnitCount := noUnits.length
  let withUnitCount := total - noUnitCount
  if decide (10 < total) then
    if decide (noUnitCount = 1) && decide (10 < withUnitCount) then
      match noUnits with
      | r :: _ =>
        ((if keep.any (fun j => decide (j = r.idx)) then keep.erase r.idx else keep),
         rm ++ [r.idx],
         [(r.idx, "One-off: Single address without unit among " ++
                  toString withUnitCount ++ " with units")])
      | [] => (keep, rm, [])
    else if decide (withUnitCount = 1) && decide (10 < noUnitCount) then
      match df3.filter (fun r => r.unit.isSome) with
      | r :: _ =>
        ((if keep.any (fun j => decide (j = r.idx)) then keep.erase r.idx else keep),
         rm ++ [r.idx],
         [(r.idx, "One-off: Single address with unit among " ++
                  toString noUnitCount ++ " without units")])
      | [] => (keep, rm, [])
    else (keep, rm, [])
  else (keep, rm, [])

/-- `AddressSorter.process_roe_subname`: the per-community rule engine.
Returns `(keep_addresses, remove_addresses, flagged)`. -/
def process_roe_subname (bt : String) (hasPlus4 : Bool) (df : List Record) :
    List Nat × List Nat × List (Nat × String) :=
  let df1 := roeDf1 df
  let anomIdxs := roeAnomIdxs df
  if df1.isEmpty then ([], anomIdxs, []) else
  let s2 := stage2 bt hasPlus4 df1
  let df2 := s2.1
  let removedEarly := anomIdxs ++ s2.2
  if df2.isEmpty then ([], removedEarly, []) else
  let overFlags := oversizeFlags df2
  let m := mduStage bt df2
  let df3 := df2.filter (fun r => !((m.1).any (fun j => decide (j = r.idx))))
  if df3.isEmpty then ([], removedEarly, overFlags ++ m.2) else
  let sd := streetDedup (useMduPolicy bt df2) df3
  let pd := postDedupFlags bt df2 df3 sd.1 (removedEarly ++ sd.2)
  let oo := oneOff df3 sd.1 (removedEarly ++ sd.2)
  (oo.1, oo.2.1, overFlags ++ m.2 ++ pd ++ oo.2.2)

/-! Projections of the intermediate working sets of
`process_roe_subname`, used to state properties of individual stages. -/

/-- The stage-2 survivor set (the stage-5 input). -/
def roeDf2 (bt : String) (hasPlus4 : Bool) (df : List Record) : List Record :=
  (stage2 bt hasPlus4 (roeDf1 df)).1

/-- The stage-2 removed index labels. -/
def roeP4Idxs (bt : String) (hasPlus4 : Bool) (df : List Record) : List Nat :=
  (stage2 bt hasPlus4 (roeDf1 df)).2

/-- All index labels removed by the early exclusion stages 1 and 2. -/
def roeRemovedEarly (bt : String) (hasPlus4 : Bool) (df : List Record) : List Nat :=
  roeAnomIdxs df ++ roeP4Idxs bt hasPlus4 df

/-- The index labels excluded by the stage-5 majority-format rule. -/
def roeExclIdxs (bt : String) (hasPlus4 : Bool) (df : List Record) : List Nat :=
  (mduStage bt (roeDf2 bt hasPlus4 df)).1

/-- The stage-5 flag entries. -/
def roeMduFlags (bt : String) (hasPlus4 : Bool) (df : List Record) : List (Nat × String) :=
  (mduStage bt (roeDf2 bt hasPlus4 df)).2

/-- The stage-6 input: stage-2 survivors minus the stage-5 exclusions. -/
def roeDf3 (bt : String) (hasPlus4 : Bool) (df : List Record) : List Record :=
  (roeDf2 bt hasPlus4 df).filter
    (fun r => !((roeExclIdxs bt hasPlus4 df).any (fun j => decide (j = r.idx))))

/-- The stage-6 keep list. -/
def roeKeep0 (bt : String) (hasPlus4 : Bool) (df : List Record) : List Nat :=
  (streetDedup (useMduPolicy bt (roeDf2 bt hasPlus4 df)) (roeDf3 bt hasPlus4 df)).1

/-- The stage-6 remove list. -/
def roeRemove0 (bt : String) (hasPlus4 : Bool) (df : List Record) : List Nat :=
  (streetDedup (useMduPolicy bt (roeDf2 bt hasPlus4 df)) (roeDf3 bt hasPlus4 df)).2

/-- The stage-7 (post-dedup minority-format) flag entries. -/
def roeStage7Flags (bt : String) (hasPlus4 : Bool) (df : List Record) : List (Nat × String) :=
  postDedupFlags bt (roeDf2 bt hasPlus4 df) (roeDf3 bt hasPlus4 df)
    (roeKeep0 bt hasPlus4 df) (roeRemovedEarly bt hasPlus4 df ++ roeRemove0 bt hasPlus4 df)

/-- The stage-8 override outcome. -/
def roeOneOff (bt : String) (hasPlus4 : Bool) (df : List Record) :
    List Nat × List Nat × List (Nat × String) :=
  oneOff (roeDf3 bt hasPlus4 df) (roeKeep0 bt hasPlus4 df)
    (roeRemovedEarly bt hasPlus4 df ++ roeRemove0 bt hasPlus4 df)

/-- `process_roe_subname` written without the degenerate-community early
returns; extensionally equal to it (`process_roe_subname_eq`). -/
def processStraight (bt : String) (hasPlus4 : Bool) (df : List Record) :
    List Nat × List Nat × List (Nat × String) :=
  (( roeOneOff bt hasPlus4 df).1,
   (roeOneOff bt hasPlus4 df).2.1,
   oversizeFlags (roeDf2 bt hasPlus4 df) ++ roeMduFlags bt hasPlus4 df ++
     roeStage7Flags bt hasPlus4 df ++ (roeOneOff bt hasPlus4 df).2.2)

/-! The aggregator: `initial_sort`, `process_roe_deduplication` and
`add_spacing_to_roe`. -/

/-- `initial_sort`: the Public tab (`Building Type == 'Residential'`). -/
def publicTab (input : List Record) : List Record :=
  input.filter (fun r => decide (r.bt = "Residential"))

/-- `initial_sort`: the Commercial tab. -/
def commercialTab (input : List Record) : List Record :=
  input.filter (fun r => decide (r.bt = "Commercial"))

/-- `initial_sort`: the Competitive tab. -/
def competitiveTab (input : List Record) : List Record :=
  input.filter (fun r => decide (r.bt = "Competitive"))

/-- `initial_sort`: the Other tab. -/
def otherTab (input : List Record) : List Record :=
  input.filter (fun r => decide (r.bt = "Other"))

/-- `initial_sort`: the ROE candidates. -/
def roeCandidates (input : List Record) : List Record :=
  input.filter (fun r =>
    decide (r.bt = "Residential - MDU") || decide (r.bt = "SFA") ||
    decide (r.bt = "HOA") || decide (r.bt = "Mobile"))

/-- Lexicographic order on `(Subname, Building Type)` group keys. -/
def pairLe (a b : String × String) : Bool :=
  if strLe a.1 b.1 && strLe b.1 a.1 then strLe a.2 b.2 else strLe a.1 b.1

/-- The sorted distinct `(Subname, Building Type)` keys of `groupby`. -/
def communityKeys (roe : List Record) : List (String × String) :=
  sortByRel pairLe (firstOccs (roe.map (fun r => (r.subname, r.bt))))

/-- The rows of one `(Subname, Building Type)` group, in input order. -/
def communityRecs (roe : List Record) (k : String × String) : List Record :=
  roe.filter (fun r => decide (r.subname = k.1) && decide (r.bt = k.2))

/-- Sort key order used for `No Subname` groups (missing values last,
matching pandas `sort_values`; ties are in an unspecified order in
pandas, modelled here by a stable sort). -/
def optStrLe (a b : Option String) : Bool :=
  match a, b with
  | none, none => true
  | some _, none => true
  | none, some _ => false
  | some x, some y => strLe x y

/-- Intra-group ordering handed to the rule engine: `No Subname` groups
are sorted by `Street Name` (by `Street Address` when that column is
absent); all other groups stay in input order. -/
def orderedCommunity (hasStreetName : Bool) (k : String × String) (l : List Record) :
    List Record :=
  if decide (k.1 = "No Subname") then
    if hasStreetName then sortByRel (fun a b => optStrLe a.streetName b.streetName) l
    else sortByRel (fun a b => optStrLe a.street b.street) l
  else l

/-- The record list handed to `process_roe_subname` for key `k`. -/
def communityInput (hasStreetName : Bool) (roe : List Record) (k : String × String) :
    List Record :=
  orderedCommunity hasStreetName k (communityRecs roe k)

/-- `process_roe_deduplication`: concatenated keep indices. -/
def roeKeepIdx (hasPlus4 hasStreetName : Bool) (roe : List Record) : List Nat :=
  ((communityKeys roe).map
    (fun k => (process_roe_subname k.2 hasPlus4 (communityInput hasStreetName roe k)).1)).flatten

/-- `process_roe_deduplication`: concatenated remove indices. -/
def roeRemoveIdx (hasPlus4 hasStreetName : Bool) (roe : List Record) : List Nat :=
  ((communityKeys roe).map
    (fun k => (process_roe_subname k.2 hasPlus4 (communityInput hasStreetName roe k)).2.1)).flatten

/-- `process_roe_deduplication`: concatenated flag entries. -/
def roeFlagged (hasPlus4 hasStreetName : Bool) (roe : List Record) : List (Nat × String) :=
  ((communityKeys roe).map
    (fun k => (process_roe_subname k.2 hasPlus4 (communityInput hasStreetName roe k)).2.2)).flatten

/-- Concatenated stage-5 exclusions over all communities (rows that are
flagged but reach neither the keep nor the remove list). -/
def pipelineExcludedIdx (hasPlus4 hasStreetName : Bool) (roe : List Record) : List Nat :=
  ((communityKeys roe).map
    (fun k => roeExclIdxs k.2 hasPlus4 (communityInput hasStreetName roe k))).flatten

/-- `df.loc[labels]`: one block of matching rows per label, in label
order (a repeated label repeats its rows). -/
def locByIdx (roe : List Record) (idxs : List Nat) : List Record :=
  idxs.flatMap (fun i => roe.filter (fun r => decide (r.idx = i)))

/-- The ROE tab contents (kept records, before presentation sorting). -/
def roeTab (hasPlus4 hasStreetName : Bool) (input : List Record) : List Record :=
  locByIdx (roeCandidates input) (roeKeepIdx hasPlus4 hasStreetName (roeCandidates input))

/-- The Remove tab contents. -/
def removeTab (hasPlus4 hasStreetName : Bool) (input : List Record) : List Record :=
  locByIdx (roeCandidates input) (roeRemoveIdx hasPlus4 hasStreetName (roeCandidates input))

/-- The six exclusive category outputs, in order: Public, Commercial,
Competitive, Other, ROE (kept), Remove. -/
def sixTabs (hasPlus4 hasStreetName : Bool) (input : List Record) : List (List Record) :=
  [publicTab input, commercialTab input, competitiveTab input, otherTab input,
   roeTab hasPlus4 hasStreetName input, removeTab hasPlus4 hasStreetName input]

/-- In how many of `tabs` the record `r` appears (membership count). -/
def memCount (r : Record) (tabs : List (List Record)) : Nat :=
  tabs.countP (fun t => decide (r ∈ t))

/-- The eight `Building Type` values the sorter recognises. -/
def knownBts : List String :=
  ["Residential", "Commercial", "Competitive", "Other",
   "Residential - MDU", "SFA", "HOA", "Mobile"]

/-- An output row of `add_spacing_to_roe`: a presentation spacer or a
record with an optional `Unit Count` cell. -/
inductive Spaced where
  | blank : Spaced
  | row (r : Record) (count : Option Nat) : Spaced
deriving DecidableEq, Repr

/-- `value_counts()` of the `Subname` column. -/
def subnameCount (roe : List Record) (s : String) : Nat :=
  (roe.filter (fun r => decide (r.subname = s))).length

/-- The row loop of `add_spacing_to_roe`: `prev` is the previous row's
subname, `first` the `first_in_community` flag. -/
def addSpacingAux (counts : String → Nat) : Option String → Bool → List Record → List Spaced
  | _, _, [] => []
  | prev, first, r :: rs =>
    let isNew : Bool := match prev with | none => false | some p => !(decide (p = r.subname))
    let first1 := first || isNew
    if first1 && decide (0 < counts r.subname) then
      (if isNew then [Spaced.blank] else []) ++
        Spaced.row r (some (counts r.subname)) :: addSpacingAux counts (some r.subname) false rs
    else
      (if isNew then [Spaced.blank] else []) ++
        Spaced.row r none :: addSpacingAux counts (some r.subname) first1 rs

/-- `AddressSorter.add_spacing_to_roe` applied to the (already sorted)
ROE tab: inserts a spacer between communities and a per-community unit
count on each community's first row. -/
def add_spacing_to_roe (roe : List Record) : List Spaced :=
  addSpacingAux (subnameCount roe) none true roe

/-- Concrete community used to exercise the engine: one no-unit record
on its own street among eleven with-unit records (MDU). -/
def c10df : List Record :=
  ⟨0, some "B St", none, none, none, "Residential - MDU", "Oaks", none⟩ ::
  (List.range 11).map (fun n =>
    ⟨n + 1, some "A St", some (toString (n + 1)), none, none, "Residential - MDU", "Oaks", none⟩)

/-- Concrete MDU community with a minority-format record (index 2). -/
def c1df : List Record :=
  [⟨0, some "1 Main", some "APT 1", none, none, "Residential - MDU", "A", none⟩,
   ⟨1, some "1 Main", some "APT 2", none, none, "Residential - MDU", "A", none⟩,
   ⟨2, some "1 Main", some "# 5", none, none, "Residential - MDU", "A", none⟩]

lemma get_unit_format_type_total (u : Option String) :
    get_unit_format_type u ∈ allFormatTags := by
  unfold get_unit_format_type allFormatTags
  cases u with
  | none => simp
  | some v =>
    show (if _ then _ else _) ∈ _
    split_ifs <;> simp

/-- Claim C3: `get_unit_format_type` is a total deterministic function
into the nine format tags, and on the spec's sample inputs it returns
the stated tags: "Unit 6" ↦ unit_format, "APT 6" ↦ apt_format,
"6" ↦ number_only, "STE 100" ↦ ste_format, "BLDG J" ↦ building_format,
"# B-1234" ↦ hash_b_format, "# 6" ↦ hash_format, missing ↦ no_unit
(rules applied case-insensitively to the trimmed string, in order). -/
theorem claim_C3_classify_unit :
    (∀ u : Option String, get_unit_format_type u ∈ allFormatTags) ∧
    get_unit_format_type (some "Unit 6") = "unit_format" ∧
    get_unit_format_type (some "APT 6") = "apt_format" ∧
    get_unit_format_type (some "6") = "number_only" ∧
    get_unit_format_type (some "STE 100") = "ste_format" ∧
    get_unit_format_type (some "BLDG J") = "building_format" ∧
    get_unit_format_type (some "# B-1234") = "hash_b_format" ∧
    get_unit_format_type (some "# 6") = "hash_format" ∧
    get_unit_format_type none = "no_unit" :=
  ⟨get_unit_format_type_total, by decide, by decide, by decide, by decide, by decide,
   by decide, by decide, by decide⟩

/-- Claim C4: the stage-5 majority-format exclusion runs only when the
declared building category is `Residential - MDU`: for any other
category it excludes and flags nothing, even though the stage-6 dedup
policy (`useMduPolicy`) still applies the MDU branch whenever the
community is detected condo-style. -/
theorem claim_C4_mdu_stage_scope (bt : String) (df2 : List Record)
    (hbt : bt ≠ "Residential - MDU") :
    mduStage bt df2 = ([], []) ∧ useMduPolicy bt df2 = isCondoStyle df2 := by
  have hdec : decide (bt = "Residential - MDU") = false := decide_eq_false hbt
  constructor
  · unfold mduStage
    rw [hdec]
    simp
  · unfold useMduPolicy
    rw [hdec]
    exact Bool.false_or _

/-- Concrete condo-style SFA community: 51 records on one street, all
with units. -/
def condoDf : List Record :=
  (List.range 51).map
    (fun n => ⟨n, some "1 Main", some (toString n), none, none, "SFA", "C", none⟩)

/-- Witness for C4: a condo-style SFA community where stage 5 is skipped
while stage 6 nevertheless uses the MDU dedup branch. -/
theorem claim_C4_mdu_stage_scope_witness :
    ("SFA" ≠ "Residential - MDU") ∧ isCondoStyle condoDf = true ∧
    (mduStage "SFA" condoDf = ([], []) ∧
      useMduPolicy "SFA" condoDf = isCondoStyle condoDf) :=
  ⟨by decide, by decide, claim_C4_mdu_stage_scope "SFA" condoDf (by decide)⟩

lemma stage2_nil (bt : String) (hasPlus4 : Bool) : stage2 bt hasPlus4 [] = ([], []) := by
  unfold stage2
  split <;> rfl

/-- Degenerate community: its only record is an `OFC` unit anomaly, so
the survivor set is empty after stage 1. -/
def c7df : List Record :=
  [⟨0, some "1 Main", some "OFC", none, none, "SFA", "A", none⟩]

/-- Counterexample to C7 as stated: a community whose survivor set is
empty after the early exclusion stages still contributes its
early-excluded indices to the remove output. -/
theorem claim_C7_counterexample :
    roeDf2 "SFA" false c7df = [] ∧ (process_roe_subname "SFA" false c7df).2.1 ≠ [] := by
  decide

/-- Claim C7 (amended): a community whose survivor set is empty after
the early exclusion stages terminates early, contributing nothing to
keep and flagged; its remove contribution is exactly the index labels
excluded by stages 1 and 2. -/
theorem claim_C7_degenerate_early_exit (bt : String) (hasPlus4 : Bool) (df : List Record)
    (hempty : roeDf2 bt hasPlus4 df = []) :
    process_roe_subname bt hasPlus4 df = ([], roeRemovedEarly bt hasPlus4 df, []) := by
  unfold roeDf2 at hempty
  unfold process_roe_subname roeRemovedEarly roeP4Idxs
  by_cases h1 : (roeDf1 df).isEmpty
  · rw [if_pos h1]
    have hd1 : roeDf1 df = [] := List.isEmpty_iff.mp h1
    rw [hd1, stage2_nil, List.append_nil]
  · rw [if_neg h1]
    simp only [hempty, List.isEmpty_nil, if_pos]

/-- Witness for the amended C7 at the concrete degenerate community. -/
theorem claim_C7_degenerate_early_exit_witness :
    roeDf2 "SFA" false c7df = [] ∧
    process_roe_subname "SFA" false c7df = ([], roeRemovedEarly "SFA" false c7df, []) :=
  ⟨by decide, claim_C7_degenerate_early_exit "SFA" false c7df (by decide)⟩

/-- Claim C10: the one-off override appends the lone record's index to
the remove list without checking prior membership, so for a concrete
Residential-MDU community (one no-unit record on its own street among
eleven with-unit records, with-unit fraction 11/12 ≥ 0.8) the index
occurs twice in the returned remove list and the row appears twice in
the final Remove category output. -/
theorem claim_C10_duplicate_remove :
    (process_roe_subname "Residential - MDU" false c10df).2.1.count 0 = 2 ∧
    (removeTab false false c10df).count
      ⟨0, some "B St", none, none, none, "Residential - MDU", "Oaks", none⟩ = 2 := by
  decide

/-! Generic list toolkit used by the membership proofs. -/

lemma insertSorted_perm {α : Type} (le : α → α → Bool) (a : α) (l : List α) :
    (insertSorted le a l).Perm (a :: l) := by
  induction l with
  | nil => exact List.Perm.refl _
  | cons b t ih =>
    unfold insertSorted
    split
    · exact List.Perm.refl _
    · exact (ih.cons b).trans (List.Perm.swap a b t)

lemma sortByRel_perm {α : Type} (le : α → α → Bool) (l : List α) :
    (sortByRel le l).Perm l := by
  induction l with
  | nil => exact List.Perm.refl _
  | cons a t ih => exact (insertSorted_perm le a (sortByRel le t)).trans (ih.cons a)

lemma mem_sortByRel {α : Type} (le : α → α → Bool) (l : List α) (a : α) :
    a ∈ sortByRel le l ↔ a ∈ l :=
  (sortByRel_perm le l).mem_iff

lemma nodup_sortByRel {α : Type} (le : α → α → Bool) (l : List α) (h : l.Nodup) :
    (sortByRel le l).Nodup :=
  ((sortByRel_perm le l).nodup_iff).2 h

lemma mem_firstOccs {α : Type} [DecidableEq α] (a : α) (l : List α) :
    a ∈ firstOccs l ↔ a ∈ l := by
  induction l with
  | nil => simp [firstOccs]
  | cons x xs ih =>
    simp only [firstOccs, List.mem_cons, List.mem_filter, ih, Bool.not_eq_eq_eq_not,
      Bool.not_true, decide_eq_false_iff_not]
    by_cases h : a = x <;> simp [h]

lemma nodup_firstOccs {α : Type} [DecidableEq α] (l : List α) : (firstOccs l).Nodup := by
  induction l with
  | nil => simp [firstOccs]
  | cons x xs ih =>
    refine List.nodup_cons.2 ⟨?_, ih.filter _⟩
    intro hmem
    have h := (List.mem_filter.1 hmem).2
    simp at h

lemma idx_inj {df : List Record} (hnd : (df.map Record.idx).Nodup) {a b : Record}
    (ha : a ∈ df) (hb : b ∈ df) (h : a.idx = b.idx) : a = b :=
  List.inj_on_of_nodup_map hnd ha hb h

lemma idx_mem_map_iff {df : List Record} (hnd : (df.map Record.idx).Nodup) {l : List Record}
    {r : Record} (hr : r ∈ df) (hsub : ∀ x ∈ l, x ∈ df) :
    r.idx ∈ l.map Record.idx ↔ r ∈ l := by
  constructor
  · intro h
    obtain ⟨x, hx, hxi⟩ := List.mem_map.1 h
    have hxr : x = r := idx_inj hnd (hsub x hx) hr hxi
    rwa [hxr] at hx
  · exact fun h => List.mem_map_of_mem _ h

lemma any_decide_mem (idxs : List Nat) (i : Nat) :
    (idxs.any (fun j => decide (j = i))) = true ↔ i ∈ idxs := by
  simp [List.any_eq_true]

/-! Structural lemmas about the street-level deduplication stage. -/

lemma noUnitIdx_sub {g : List Record} {i : Nat} (h : i ∈ noUnitIdx g) :
    ∃ r ∈ g, r.idx = i ∧ r.unit.isNone = true := by
  obtain ⟨r, hr, hri⟩ := List.mem_map.1 h
  exact ⟨r, (List.mem_filter.1 hr).1, hri, (List.mem_filter.1 hr).2⟩

lemma withUnitIdx_sub {g : List Record} {i : Nat} (h : i ∈ withUnitIdx g) :
    ∃ r ∈ g, r.idx = i ∧ r.unit.isSome = true := by
  obtain ⟨r, hr, hri⟩ := List.mem_map.1 h
  exact ⟨r, (List.mem_filter.1 hr).1, hri, (List.mem_filter.1 hr).2⟩

lemma noUnit_withUnit_disjoint {g : List Record} (hg : (g.map Record.idx).Nodup) {i : Nat}
    (h1 : i ∈ noUnitIdx g) (h2 : i ∈ withUnitIdx g) : False := by
  obtain ⟨r1, hr1, hi1, hu1⟩ := noUnitIdx_sub h1
  obtain ⟨r2, hr2, hi2, hu2⟩ := withUnitIdx_sub h2
  have : r1 = r2 := idx_inj hg hr1 hr2 (by rw [hi1, hi2])
  rw [this] at hu1
  rw [Option.isNone_iff_eq_none.1 hu1] at hu2
  simp at hu2

lemma dedupGroup_exhaustive (u p : Bool) (g : List Record) {r : Record} (hr : r ∈ g) :
    r.idx ∈ (dedupGroup u p g).1 ∨ r.idx ∈ (dedupGroup u p g).2 := by
  rcases hu : r.unit with _ | v
  · have hmem : r.idx ∈ noUnitIdx g :=
      List.mem_map_of_mem _ (List.mem_filter.2 ⟨hr, by rw [hu]; rfl⟩)
    have hne : noUnitIdx g ≠ [] := List.ne_nil_of_mem hmem
    unfold dedupGroup
    split_ifs <;> simp_all [List.isEmpty_iff]
  · have hmem : r.idx ∈ withUnitIdx g :=
      List.mem_map_of_mem _ (List.mem_filter.2 ⟨hr, by rw [hu]; rfl⟩)
    have hne : withUnitIdx g ≠ [] := List.ne_nil_of_mem hmem
    unfold dedupGroup
    split_ifs <;> simp_all [List.isEmpty_iff]

lemma dedupGroup_fst_sub (u p : Bool) (g : List Record) {i : Nat}
    (h : i ∈ (dedupGroup u p g).1) : ∃ r ∈ g, r.idx = i := by
  have hcases : (dedupGroup u p g).1 = noUnitIdx g ∨ (dedupGroup u p g).1 = withUnitIdx g ∨
      (dedupGroup u p g).1 = [] := by
    unfold dedupGroup
    split_ifs <;> simp
  rcases hcases with hc | hc | hc <;> rw [hc] at h
  · obtain ⟨r, hr, hi, _⟩ := noUnitIdx_sub h
    exact ⟨r, hr, hi⟩
  · obtain ⟨r, hr, hi, _⟩ := withUnitIdx_sub h
    exact ⟨r, hr, hi⟩
  · exact absurd h (List.not_mem_nil i)

lemma dedupGroup_snd_sub (u p : Bool) (g : List Record) {i : Nat}
    (h : i ∈ (dedupGroup u p g).2) : ∃ r ∈ g, r.idx = i := by
  have hcases : (dedupGroup u p g).2 = noUnitIdx g ∨ (dedupGroup u p g).2 = withUnitIdx g ∨
      (dedupGroup u p g).2 = [] := by
    unfold dedupGroup
    split_ifs <;> simp
  rcases hcases with hc | hc | hc <;> rw [hc] at h
  · obtain ⟨r, hr, hi, _⟩ := noUnitIdx_sub h
    exact ⟨r, hr, hi⟩
  · obtain ⟨r, hr, hi, _⟩ := withUnitIdx_sub h
    exact ⟨r, hr, hi⟩
  · exact absurd h (List.not_mem_nil i)

lemma dedupGroup_disjoint (u p : Bool) (g : List Record) (hg : (g.map Record.idx).Nodup)
    {i : Nat} (h1 : i ∈ (dedupGroup u p g).1) (h2 : i ∈ (dedupGroup u p g).2) : False := by
  have hpair : ((dedupGroup u p g).1 = noUnitIdx g ∧ (dedupGroup u p g).2 = withUnitIdx g) ∨
      ((dedupGroup u p g).1 = withUnitIdx g ∧ (dedupGroup u p g).2 = noUnitIdx g) ∨
      (dedupGroup u p g).1 = [] ∨ (dedupGroup u p g).2 = [] := by
    unfold dedupGroup
    split_ifs <;> simp
  rcases hpair with ⟨ha, hb⟩ | ⟨ha, hb⟩ | hc | hc
  · rw [ha] at h1; rw [hb] at h2
    exact noUnit_withUnit_disjoint hg h1 h2
  · rw [ha] at h1; rw [hb] at h2
    exact noUnit_withUnit_disjoint hg h2 h1
  · rw [hc] at h1; exact List.not_mem_nil i h1
  · rw [hc] at h2; exact List.not_mem_nil i h2

lemma dedupGroup_fst_nodup (u p : Bool) (g : List Record) (hg : (g.map Record.idx).Nodup) :
    (dedupGroup u p g).1.Nodup := by
  have hno : (noUnitIdx g).Nodup :=
    hg.sublist ((List.filter_sublist g).map Record.idx)
  have hwith : (withUnitIdx g).Nodup :=
    hg.sublist ((List.filter_sublist g).map Record.idx)
  have hcases : (dedupGroup u p g).1 = noUnitIdx g ∨ (dedupGroup u p g).1 = withUnitIdx g ∨
      (dedupGroup u p g).1 = [] := by
    unfold dedupGroup
    split_ifs <;> simp
  rcases hcases with hc | hc | hc <;> rw [hc]
  · exact hno
  · exact hwith
  · exact List.nodup_nil

lemma mem_streetGroup {df : List Record} {s : String} {r : Record} :
    r ∈ streetGroup df s ↔ r ∈ df ∧ r.street = some s := by
  unfold streetGroup
  rw [List.mem_filter]
  simp

lemma streetKeys_nodup (df : List Record) : (streetKeys df).Nodup :=
  nodup_sortByRel _ _ (nodup_firstOccs _)

lemma mem_streetKeys {df : List Record} {s : String} :
    s ∈ streetKeys df ↔ ∃ r ∈ df, r.street = some s := by
  unfold streetKeys
  rw [mem_sortByRel, mem_firstOccs, List.mem_filterMap]

lemma mem_streetDedup_fst {u : Bool} {df3 : List Record} {i : Nat} :
    i ∈ (streetDedup u df3).1 ↔
      ∃ s ∈ streetKeys df3, i ∈ (dedupGroup u (pct80 df3) (streetGroup df3 s)).1 := by
  unfold streetDedup
  simp

lemma mem_streetDedup_snd {u : Bool} {df3 : List Record} {i : Nat} :
    i ∈ (streetDedup u df3).2 ↔
      ∃ s ∈ streetKeys df3, i ∈ (dedupGroup u (pct80 df3) (streetGroup df3 s)).2 := by
  unfold streetDedup
  simp

lemma streetGroup_idx_nodup {df3 : List Record} (hnd3 : (df3.map Record.idx).Nodup)
    (s : String) : ((streetGroup df3 s).map Record.idx).Nodup :=
  hnd3.sublist ((List.filter_sublist df3).map Record.idx)

lemma streetDedup_exhaustive (u : Bool) (df3 : List Record) {r : Record} (hr : r ∈ df3)
    (hs : r.street.isSome = true) :
    r.idx ∈ (streetDedup u df3).1 ∨ r.idx ∈ (streetDedup u df3).2 := by
  obtain ⟨s, hseq⟩ := Option.isSome_iff_exists.1 hs
  have hkey : s ∈ streetKeys df3 := mem_streetKeys.2 ⟨r, hr, hseq⟩
  have hg : r ∈ streetGroup df3 s := mem_streetGroup.2 ⟨hr, hseq⟩
  rcases dedupGroup_exhaustive u (pct80 df3) (streetGroup df3 s) hg with h | h
  · exact Or.inl (mem_streetDedup_fst.2 ⟨s, hkey, h⟩)
  · exact Or.inr (mem_streetDedup_snd.2 ⟨s, hkey, h⟩)

lemma streetDedup_fst_sub {u : Bool} {df3 : List Record} {i : Nat}
    (h : i ∈ (streetDedup u df3).1) : ∃ r ∈ df3, r.idx = i := by
  obtain ⟨s, _, hi⟩ := mem_streetDedup_fst.1 h
  obtain ⟨r, hr, hri⟩ := dedupGroup_fst_sub _ _ _ hi
  exact ⟨r, (mem_streetGroup.1 hr).1, hri⟩

lemma streetDedup_snd_sub {u : Bool} {df3 : List Record} {i : Nat}
    (h : i ∈ (streetDedup u df3).2) : ∃ r ∈ df3, r.idx = i := by
  obtain ⟨s, _, hi⟩ := mem_streetDedup_snd.1 h
  obtain ⟨r, hr, hri⟩ := dedupGroup_snd_sub _ _ _ hi
  exact ⟨r, (mem_streetGroup.1 hr).1, hri⟩

lemma streetDedup_disjoint (u : Bool) (df3 : List Record)
    (hnd3 : (df3.map Record.idx).Nodup) {i : Nat}
    (h1 : i ∈ (streetDedup u df3).1) (h2 : i ∈ (streetDedup u df3).2) : False := by
  obtain ⟨s1, hk1, hi1⟩ := mem_streetDedup_fst.1 h1
  obtain ⟨s2, hk2, hi2⟩ := mem_streetDedup_snd.1 h2
  obtain ⟨r1, hr1, hri1⟩ := dedupGroup_fst_sub _ _ _ hi1
  obtain ⟨r2, hr2, hri2⟩ := dedupGroup_snd_sub _ _ _ hi2
  have hm1 := mem_streetGroup.1 hr1
  have hm2 := mem_streetGroup.1 hr2
  have hr12 : r1 = r2 := idx_inj hnd3 hm1.1 hm2.1 (by rw [hri1, hri2])
  have hs12 : s1 = s2 := by
    have := hm1.2
    rw [hr12, hm2.2] at this
    exact (Option.some_injective _ this).symm
  rw [hs12] at hi1
  exact dedupGroup_disjoint _ _ _ (streetGroup_idx_nodup hnd3 s2) hi1 hi2

lemma streetDedup_fst_nodup (u : Bool) (df3 : List Record)
    (hnd3 : (df3.map Record.idx).Nodup) : (streetDedup u df3).1.Nodup := by
  unfold streetDedup
  rw [List.nodup_flatten]
  constructor
  · intro l hl
    obtain ⟨s, _, hls⟩ := List.mem_map.1 hl
    rw [← hls]
    exact dedupGroup_fst_nodup _ _ _ (streetGroup_idx_nodup hnd3 s)
  · rw [List.pairwise_map]
    refine (streetKeys_nodup df3).imp ?_
    intro s1 s2 hne i hi1 hi2
    obtain ⟨r1, hr1, hri1⟩ := dedupGroup_fst_sub _ _ _ hi1
    obtain ⟨r2, hr2, hri2⟩ := dedupGroup_fst_sub _ _ _ hi2
    have hm1 := mem_streetGroup.1 hr1
    have hm2 := mem_streetGroup.1 hr2
    have hr12 : r1 = r2 := idx_inj hnd3 hm1.1 hm2.1 (by rw [hri1, hri2])
    apply hne
    have := hm1.2
    rw [hr12, hm2.2] at this
    exact (Option.some_injective _ this).symm

lemma dedupGroup_nonMdu_both (p : Bool) (g : List Record)
    (h1 : noUnitIdx g ≠ []) (h2 : withUnitIdx g ≠ []) :
    dedupGroup false p g = (noUnitIdx g, withUnitIdx g) := by
  unfold dedupGroup
  simp [List.isEmpty_eq_false.2 h1, List.isEmpty_eq_false.2 h2]

/-- Claim C5: in an SFA-policy (non-MDU, non-condo-style) community
whose every street address carries both a no-unit record and a
with-unit record, stage 6 keeps every no-unit record and removes every
with-unit record. -/
theorem claim_C5_sfa_both_kinds (bt : String) (df2 df3 : List Record)
    (hsfa : useMduPolicy bt df2 = false)
    (hst : ∀ r ∈ df3, r.street.isSome = true)
    (hboth : ∀ r ∈ df3,
      (∃ r1 ∈ df3, r1.street = r.street ∧ r1.unit = none) ∧
      (∃ r2 ∈ df3, r2.street = r.street ∧ r2.unit.isSome = true)) :
    ∀ r ∈ df3,
      (r.unit = none → r.idx ∈ (streetDedup (useMduPolicy bt df2) df3).1) ∧
      (r.unit.isSome = true → r.idx ∈ (streetDedup (useMduPolicy bt df2) df3).2) := by
  rw [hsfa]
  intro r hr
  obtain ⟨s, hseq⟩ := Option.isSome_iff_exists.1 (hst r hr)
  have hkey : s ∈ streetKeys df3 := mem_streetKeys.2 ⟨r, hr, hseq⟩
  obtain ⟨⟨r1, hr1, hr1s, hr1u⟩, r2, hr2, hr2s, hr2u⟩ := hboth r hr
  have hg1 : r1 ∈ streetGroup df3 s := mem_streetGroup.2 ⟨hr1, by rw [hr1s, hseq]⟩
  have hg2 : r2 ∈ streetGroup df3 s := mem_streetGroup.2 ⟨hr2, by rw [hr2s, hseq]⟩
  have hno : r1.idx ∈ noUnitIdx (streetGroup df3 s) :=
    List.mem_map_of_mem _ (List.mem_filter.2 ⟨hg1, by rw [hr1u]; rfl⟩)
  have hwith : r2.idx ∈ withUnitIdx (streetGroup df3 s) :=
    List.mem_map_of_mem _ (List.mem_filter.2 ⟨hg2, hr2u⟩)
  have hdg := dedupGroup_nonMdu_both (pct80 df3) (streetGroup df3 s)
    (List.ne_nil_of_mem hno) (List.ne_nil_of_mem hwith)
  have hgr : r ∈ streetGroup df3 s := mem_streetGroup.2 ⟨hr, hseq⟩
  constructor
  · intro hu
    refine mem_streetDedup_fst.2 ⟨s, hkey, ?_⟩
    rw [hdg]
    exact List.mem_map_of_mem _ (List.mem_filter.2 ⟨hgr, by rw [hu]; rfl⟩)
  · intro hu
    refine mem_streetDedup_snd.2 ⟨s, hkey, ?_⟩
    rw [hdg]
    exact List.mem_map_of_mem _ (List.mem_filter.2 ⟨hgr, hu⟩)

/-- Concrete two-record SFA community: one street with a no-unit and a
with-unit record. -/
def c5df : List Record :=
  [⟨0, some "1 Main", none, none, none, "SFA", "S", none⟩,
   ⟨1, some "1 Main", some "1", none, none, "SFA", "S", none⟩]

/-- Witness for C5 at the concrete SFA community. -/
theorem claim_C5_sfa_both_kinds_witness :
    useMduPolicy "SFA" c5df = false ∧
    ∀ r ∈ c5df,
      (r.unit = none → r.idx ∈ (streetDedup (useMduPolicy "SFA" c5df) c5df).1) ∧
      (r.unit.isSome = true → r.idx ∈ (streetDedup (useMduPolicy "SFA" c5df) c5df).2) :=
  ⟨by decide,
   claim_C5_sfa_both_kinds "SFA" c5df c5df (by decide) (by decide) (by decide)⟩

lemma postDedupFlags_all_assigned (bt : String) (df2 df3 : List Record)
    (keep rm : List Nat) (h : ∀ r ∈ df3, r.idx ∈ keep ∨ r.idx ∈ rm) :
    postDedupFlags bt df2 df3 keep rm = [] := by
  have hnil : ∀ q1 q2 : Record → Bool,
      df3.filter (fun r =>
        ((!(keep.any (fun j => decide (j = r.idx))) &&
          !(rm.any (fun j => decide (j = r.idx)))) && q1 r) && q2 r) = [] := by
    intro q1 q2
    refine List.filter_eq_nil_iff.2 ?_
    intro r hr
    rcases h r hr with hk | hrm
    · have hk2 : (keep.any (fun j => decide (j = r.idx))) = true := (any_decide_mem _ _).2 hk
      simp [hk2]
    · have hr2 : (rm.any (fun j => decide (j = r.idx))) = true := (any_decide_mem _ _).2 hrm
      simp [hr2]
  simp only [postDedupFlags]
  split
  · split
    · split
      · rw [hnil]
        rfl
      · rfl
    · rfl
  · rfl

/-- Claim C9: for a non-MDU community whose stage-6 input records all
carry a street address, the street-level deduplication assigns every
stage-6 input record to keep or remove, and consequently the post-dedup
minority-format pass emits no flag entries. -/
theorem claim_C9_stage7_unreachable (bt : String) (hasPlus4 : Bool) (df : List Record)
    (hbt : bt ≠ "Residential - MDU")
    (hst : ∀ r ∈ roeDf3 bt hasPlus4 df, r.street.isSome = true) :
    (∀ r ∈ roeDf3 bt hasPlus4 df,
      r.idx ∈ roeKeep0 bt hasPlus4 df ∨ r.idx ∈ roeRemove0 bt hasPlus4 df) ∧
    roeStage7Flags bt hasPlus4 df = [] := by
  have hassigned : ∀ r ∈ roeDf3 bt hasPlus4 df,
      r.idx ∈ roeKeep0 bt hasPlus4 df ∨ r.idx ∈ roeRemove0 bt hasPlus4 df := by
    intro r hr
    exact streetDedup_exhaustive _ _ hr (hst r hr)
  refine ⟨hassigned, ?_⟩
  unfold roeStage7Flags
  refine postDedupFlags_all_assigned _ _ _ _ _ ?_
  intro r hr
  rcases hassigned r hr with hk | hrm
  · exact Or.inl hk
  · exact Or.inr (List.mem_append_right _ hrm)

/-- Witness for C9: a small SFA community with streets present. -/
theorem claim_C9_stage7_unreachable_witness :
    ("SFA" ≠ "Residential - MDU") ∧
    (∀ r ∈ roeDf3 "SFA" false c5df, r.street.isSome = true) ∧
    ((∀ r ∈ roeDf3 "SFA" false c5df,
        r.idx ∈ roeKeep0 "SFA" false c5df ∨ r.idx ∈ roeRemove0 "SFA" false c5df) ∧
      roeStage7Flags "SFA" false c5df = []) :=
  ⟨by decide, by decide,
   claim_C9_stage7_unreachable "SFA" false c5df (by decide) (by decide)⟩

lemma mduStage_nil (bt : String) : mduStage bt [] = ([], []) := by
  simp [mduStage, firstOccs]

lemma oversizeFlags_nil : oversizeFlags [] = [] := by
  simp [oversizeFlags]

lemma streetDedup_nil (u : Bool) : streetDedup u [] = ([], []) := by
  simp [streetDedup, streetKeys, firstOccs, sortByRel]

lemma postDedupFlags_nil2 (bt : String) (df3 : List Record) (keep rm : List Nat) :
    postDedupFlags bt [] df3 keep rm = [] := by
  simp [postDedupFlags, firstOccs]

lemma postDedupFlags_nil3 (bt : String) (df2 : List Record) (keep rm : List Nat) :
    postDedupFlags bt df2 [] keep rm = [] := by
  simp only [postDedupFlags, List.filter_nil, List.map_nil]
  split
  · split
    · split
      · rfl
      · rfl
    · rfl
  · rfl

lemma oneOff_nil (keep rm : List Nat) : oneOff [] keep rm = (keep, rm, []) := by
  simp [oneOff]

lemma process_roe_subname_eq (bt : String) (hasPlus4 : Bool) (df : List Record) :
    process_roe_subname bt hasPlus4 df = processStraight bt hasPlus4 df := by
  simp only [process_roe_subname, processStraight, roeOneOff, roeStage7Flags, roeKeep0,
    roeRemove0, roeDf3, roeExclIdxs, roeMduFlags, roeRemovedEarly, roeP4Idxs, roeDf2]
  by_cases h1 : (roeDf1 df).isEmpty
  · have hd1 : roeDf1 df = [] := List.isEmpty_iff.1 h1
    rw [hd1]
    simp [stage2_nil, mduStage_nil, streetDedup_nil, oneOff_nil, postDedupFlags_nil2,
      oversizeFlags_nil]
  · by_cases h2 : ((stage2 bt hasPlus4 (roeDf1 df)).1).isEmpty
    · have hd2 : (stage2 bt hasPlus4 (roeDf1 df)).1 = [] := List.isEmpty_iff.1 h2
      rw [hd2]
      simp [h1, mduStage_nil, streetDedup_nil, oneOff_nil, postDedupFlags_nil2,
        oversizeFlags_nil]
    · by_cases h3 : (((stage2 bt hasPlus4 (roeDf1 df)).1).filter
        (fun r => !((mduStage bt (stage2 bt hasPlus4 (roeDf1 df)).1).1.any
          (fun j => decide (j = r.idx))))).isEmpty
      · have hd3 := List.isEmpty_iff.1 h3
        rw [hd3]
        simp [h1, h2, hd3, streetDedup_nil, oneOff_nil, postDedupFlags_nil3]
      · simp [h1, h2, h3]

/-! Membership characterisations of the intermediate working sets. -/

lemma roeDf1_sublist (df : List Record) : List.Sublist (roeDf1 df) df :=
  List.filter_sublist df

lemma roeDf2_sublist (bt : String) (h4 : Bool) (df : List Record) :
    List.Sublist (roeDf2 bt h4 df) (roeDf1 df) := by
  unfold roeDf2 stage2
  split
  · exact List.filter_sublist _
  · exact List.Sublist.refl _

lemma roeDf3_sublist (bt : String) (h4 : Bool) (df : List Record) :
    List.Sublist (roeDf3 bt h4 df) (roeDf2 bt h4 df) :=
  List.filter_sublist _

lemma roeDf2_sublist_df (bt : String) (h4 : Bool) (df : List Record) :
    List.Sublist (roeDf2 bt h4 df) df :=
  (roeDf2_sublist bt h4 df).trans (roeDf1_sublist df)

lemma roeDf3_sublist_df (bt : String) (h4 : Bool) (df : List Record) :
    List.Sublist (roeDf3 bt h4 df) df :=
  (roeDf3_sublist bt h4 df).trans (roeDf2_sublist_df bt h4 df)

lemma nodup_idx_of_sublist {l df : List Record} (hs : List.Sublist l df)
    (hnd : (df.map Record.idx).Nodup) : (l.map Record.idx).Nodup :=
  hnd.sublist (hs.map Record.idx)

lemma mem_roeDf1_iff {df : List Record} {r : Record} (hr : r ∈ df) :
    r ∈ roeDf1 df ↔ (detect_unit_anomalies r.unit).isNone = true := by
  unfold roeDf1
  rw [List.mem_filter]
  simp [hr]

lemma idx_mem_anomIdxs_iff {df : List Record} (hnd : (df.map Record.idx).Nodup)
    {r : Record} (hr : r ∈ df) :
    r.idx ∈ roeAnomIdxs df ↔ (detect_unit_anomalies r.unit).isSome = true := by
  unfold roeAnomIdxs
  rw [idx_mem_map_iff hnd hr (fun x hx => (List.mem_filter.1 hx).1), List.mem_filter]
  simp [hr]

lemma mem_roeDf2_iff {bt : String} {h4 : Bool} {df : List Record} {r : Record} :
    r ∈ roeDf2 bt h4 df ↔
      r ∈ roeDf1 df ∧ (plus4Guard bt h4 = true → plus4Anomalous r = false) := by
  unfold roeDf2 stage2
  split
  · rename_i hg
    rw [List.mem_filter]
    simp [hg]
  · rename_i hg
    simp [hg]

lemma idx_mem_p4_iff {bt : String} {h4 : Bool} {df : List Record}
    (hnd : (df.map Record.idx).Nodup) {r : Record} (hr : r ∈ df) :
    r.idx ∈ roeP4Idxs bt h4 df ↔
      plus4Guard bt h4 = true ∧ r ∈ roeDf1 df ∧ plus4Anomalous r = true := by
  unfold roeP4Idxs stage2
  split
  · rename_i hg
    rw [idx_mem_map_iff hnd hr
      (fun x hx => (roeDf1_sublist df).mem ((List.mem_filter.1 hx).1)), List.mem_filter]
    simp [hg]
  · rename_i hg
    simp [hg]

lemma roeExclIdxs_sub {bt : String} {h4 : Bool} {df : List Record} {i : Nat}
    (h : i ∈ roeExclIdxs bt h4 df) : ∃ r ∈ roeDf2 bt h4 df, r.idx = i := by
  simp only [roeExclIdxs, mduStage] at h
  split at h
  · split at h
    · obtain ⟨r, hr, hri⟩ := List.mem_map.1 h
      exact ⟨r, (List.mem_filter.1 hr).1, hri⟩
    · exact absurd h (List.not_mem_nil i)
  · exact absurd h (List.not_mem_nil i)

lemma mem_roeDf3_iff {bt : String} {h4 : Bool} {df : List Record} {r : Record}
    (hr2 : r ∈ roeDf2 bt h4 df) :
    r ∈ roeDf3 bt h4 df ↔ r.idx ∉ roeExclIdxs bt h4 df := by
  unfold roeDf3
  rw [List.mem_filter]
  simp [hr2, any_decide_mem]
  constructor
  · intro h hx
    exact h _ hx rfl
  · intro h x hx he
    rw [he] at hx
    exact h hx

lemma roeKeep0_sub {bt : String} {h4 : Bool} {df : List Record} {i : Nat}
    (h : i ∈ roeKeep0 bt h4 df) : ∃ r ∈ roeDf3 bt h4 df, r.idx = i :=
  streetDedup_fst_sub h

lemma roeRemove0_sub {bt : String} {h4 : Bool} {df : List Record} {i : Nat}
    (h : i ∈ roeRemove0 bt h4 df) : ∃ r ∈ roeDf3 bt h4 df, r.idx = i :=
  streetDedup_snd_sub h

lemma oneOff_cases (d : List Record) (k rm : List Nat) :
    oneOff d k rm = (k, rm, []) ∨
    ∃ rec reason, rec ∈ d ∧
      oneOff d k rm =
        ((if k.any (fun j => decide (j = rec.idx)) then k.erase rec.idx else k),
         rm ++ [rec.idx], [(rec.idx, reason)]) := by
  simp only [oneOff]
  split
  · split
    · rename_i hmatch
      split
      · rename_i rec t hcons
        refine Or.inr ⟨rec, _, ?_, rfl⟩
        have : rec ∈ d.filter (fun r => r.unit.isNone) := by
          rw [hcons]
          exact List.mem_cons_self rec t
        exact (List.mem_filter.1 this).1
      · exact Or.inl rfl
    · split
      · split
        · rename_i rec t hcons
          refine Or.inr ⟨rec, _, ?_, rfl⟩
          have : rec ∈ d.filter (fun r => r.unit.isSome) := by
            rw [hcons]
            exact List.mem_cons_self rec t
          exact (List.mem_filter.1 this).1
        · exact Or.inl rfl
      · exact Or.inl rfl
  · exact Or.inl rfl

lemma oneOff_moved_not_in_keep {k : List Nat} (hk : k.Nodup) (j : Nat) :
    j ∉ (if k.any (fun x => decide (x = j)) then k.erase j else k) := by
  split
  · exact hk.not_mem_erase
  · rename_i hcond
    intro hj
    exact hcond ((any_decide_mem k j).2 hj)

lemma mem_erase_or_self_of_ne {k : List Nat} {i j : Nat} (cond : Bool) (hne : i ≠ j)
    (hi : i ∈ k) : i ∈ (if cond = true then k.erase j else k) := by
  split
  · exact (List.mem_erase_of_ne hne).2 hi
  · exact hi

lemma erase_or_self_sub {k : List Nat} {i j : Nat} (cond : Bool)
    (h : i ∈ (if cond = true then k.erase j else k)) : i ∈ k := by
  by_cases hc : cond = true
  · rw [if_pos hc] at h
    exact List.mem_of_mem_erase h
  · rwa [if_neg hc] at h

/-- Per-record outcome of the rule engine: with unique index labels and
streets present, every community record lands in exactly one of keep,
remove, or the stage-5 exclusion set. -/
lemma community_classification (bt : String) (h4 : Bool) (df : List Record)
    (hnd : (df.map Record.idx).Nodup)
    (hst : ∀ r ∈ df, r.street.isSome = true) :
    ∀ r ∈ df,
      (r.idx ∈ (process_roe_subname bt h4 df).1 ∧
        r.idx ∉ (process_roe_subname bt h4 df).2.1 ∧ r.idx ∉ roeExclIdxs bt h4 df) ∨
      (r.idx ∉ (process_roe_subname bt h4 df).1 ∧
        r.idx ∈ (process_roe_subname bt h4 df).2.1 ∧ r.idx ∉ roeExclIdxs bt h4 df) ∨
      (r.idx ∉ (process_roe_subname bt h4 df).1 ∧
        r.idx ∉ (process_roe_subname bt h4 df).2.1 ∧ r.idx ∈ roeExclIdxs bt h4 df) := by
  intro r hr
  rw [process_roe_subname_eq]
  have hnd3 : ((roeDf3 bt h4 df).map Record.idx).Nodup :=
    nodup_idx_of_sublist (roeDf3_sublist_df bt h4 df) hnd
  have hK0nodup : (roeKeep0 bt h4 df).Nodup := streetDedup_fst_nodup _ _ hnd3
  have hKto3 : r.idx ∈ roeKeep0 bt h4 df → r ∈ roeDf3 bt h4 df := by
    intro hi
    obtain ⟨r', hr', hri⟩ := roeKeep0_sub hi
    rwa [idx_inj hnd ((roeDf3_sublist_df bt h4 df).mem hr') hr hri] at hr'
  have hRto3 : r.idx ∈ roeRemove0 bt h4 df → r ∈ roeDf3 bt h4 df := by
    intro hi
    obtain ⟨r', hr', hri⟩ := roeRemove0_sub hi
    rwa [idx_inj hnd ((roeDf3_sublist_df bt h4 df).mem hr') hr hri] at hr'
  have hEto2 : r.idx ∈ roeExclIdxs bt h4 df → r ∈ roeDf2 bt h4 df := by
    intro hi
    obtain ⟨r', hr', hri⟩ := roeExclIdxs_sub hi
    rwa [idx_inj hnd ((roeDf2_sublist_df bt h4 df).mem hr') hr hri] at hr'
  have hps1 : (processStraight bt h4 df).1 =
      (oneOff (roeDf3 bt h4 df) (roeKeep0 bt h4 df)
        (roeRemovedEarly bt h4 df ++ roeRemove0 bt h4 df)).1 := rfl
  have hps2 : (processStraight bt h4 df).2.1 =
      (oneOff (roeDf3 bt h4 df) (roeKeep0 bt h4 df)
        (roeRemovedEarly bt h4 df ++ roeRemove0 bt h4 df)).2.1 := rfl
  have hearly : roeRemovedEarly bt h4 df = roeAnomIdxs df ++ roeP4Idxs bt h4 df := rfl
  rw [hps1, hps2]
  rcases oneOff_cases (roeDf3 bt h4 df) (roeKeep0 bt h4 df)
      (roeRemovedEarly bt h4 df ++ roeRemove0 bt h4 df) with hoo | ⟨rec, reason, hrec, hoo⟩
  all_goals rw [hoo]
  -- Scenario 1: the one-off override did not fire.
  · by_cases hanom : (detect_unit_anomalies r.unit).isSome = true
    · -- stage-1 removal
      have hnotdf1 : r ∉ roeDf1 df := by
        intro hin
        rw [mem_roeDf1_iff hr, Option.isNone_iff_eq_none] at hin
        rw [hin] at hanom
        simp at hanom
      have hA : r.idx ∈ roeAnomIdxs df := (idx_mem_anomIdxs_iff hnd hr).2 hanom
      have hnotdf3 : r ∉ roeDf3 bt h4 df := fun h =>
        hnotdf1 ((roeDf2_sublist bt h4 df).mem ((roeDf3_sublist bt h4 df).mem h))
      have hnotdf2 : r ∉ roeDf2 bt h4 df := fun h => hnotdf1 ((roeDf2_sublist bt h4 df).mem h)
      refine Or.inr (Or.inl ⟨fun h => hnotdf3 (hKto3 h), ?_, fun h => hnotdf2 (hEto2 h)⟩)
      rw [hearly]
      exact List.mem_append_left _ (List.mem_append_left _ hA)
    · have hisnone : (detect_unit_anomalies r.unit).isNone = true := by
        cases hdet : detect_unit_anomalies r.unit
        · rfl
        · exact absurd (by rw [hdet]; rfl) hanom
      have hdf1 : r ∈ roeDf1 df := (mem_roeDf1_iff hr).2 hisnone
      have hnA : r.idx ∉ roeAnomIdxs df := fun h => hanom ((idx_mem_anomIdxs_iff hnd hr).1 h)
      by_cases hp4 : plus4Guard bt h4 = true ∧ plus4Anomalous r = true
      · -- stage-2 removal
        have hP : r.idx ∈ roeP4Idxs bt h4 df := (idx_mem_p4_iff hnd hr).2 ⟨hp4.1, hdf1, hp4.2⟩
        have hnotdf2 : r ∉ roeDf2 bt h4 df := by
          intro h
          rw [mem_roeDf2_iff] at h
          rw [h.2 hp4.1] at hp4
          simp at hp4
        have hnotdf3 : r ∉ roeDf3 bt h4 df := fun h => hnotdf2 ((roeDf3_sublist bt h4 df).mem h)
        refine Or.inr (Or.inl ⟨fun h => hnotdf3 (hKto3 h), ?_, fun h => hnotdf2 (hEto2 h)⟩)
        rw [hearly]
        exact List.mem_append_left _ (List.mem_append_right _ hP)
      · have hdf2 : r ∈ roeDf2 bt h4 df := by
          refine mem_roeDf2_iff.2 ⟨hdf1, fun hg => ?_⟩
          by_contra hne
          exact hp4 ⟨hg, by revert hne; cases plus4Anomalous r <;> simp⟩
        have hnP : r.idx ∉ roeP4Idxs bt h4 df := by
          intro h
          obtain ⟨hg, _, ha⟩ := (idx_mem_p4_iff hnd hr).1 h
          exact hp4 ⟨hg, ha⟩
        by_cases hE : r.idx ∈ roeExclIdxs bt h4 df
        · -- stage-5 exclusion
          have hnotdf3 : r ∉ roeDf3 bt h4 df := fun h => ((mem_roeDf3_iff hdf2).1 h) hE
          refine Or.inr (Or.inr ⟨fun h => hnotdf3 (hKto3 h), ?_, hE⟩)
          intro h
          rw [hearly] at h
          rcases List.mem_append.1 h with h | h
          · rcases List.mem_append.1 h with h | h
            · exact hnA h
            · exact hnP h
          · exact hnotdf3 (hRto3 h)
        · have hdf3 : r ∈ roeDf3 bt h4 df := (mem_roeDf3_iff hdf2).2 hE
          have hKR : r.idx ∈ roeKeep0 bt h4 df ∨ r.idx ∈ roeRemove0 bt h4 df :=
            streetDedup_exhaustive _ _ hdf3 (hst r hr)
          rcases hKR with hK0 | hR0
          · have hnR0 : r.idx ∉ roeRemove0 bt h4 df := fun h =>
              streetDedup_disjoint _ _ hnd3 hK0 h
            refine Or.inl ⟨hK0, ?_, hE⟩
            intro h
            rw [hearly] at h
            rcases List.mem_append.1 h with h | h
            · rcases List.mem_append.1 h with h | h
              · exact hnA h
              · exact hnP h
            · exact hnR0 h
          · have hnK0 : r.idx ∉ roeKeep0 bt h4 df := fun h =>
              streetDedup_disjoint _ _ hnd3 h hR0
            refine Or.inr (Or.inl ⟨hnK0, ?_, hE⟩)
            rw [hearly]
            exact List.mem_append_right _ hR0
  -- Scenario 2: the one-off override moved `rec` to remove.
  · have hrecdf : rec ∈ df := (roeDf3_sublist_df bt h4 df).mem hrec
    by_cases hanom : (detect_unit_anomalies r.unit).isSome = true
    · have hnotdf1 : r ∉ roeDf1 df := by
        intro hin
        rw [mem_roeDf1_iff hr, Option.isNone_iff_eq_none] at hin
        rw [hin] at hanom
        simp at hanom
      have hA : r.idx ∈ roeAnomIdxs df := (idx_mem_anomIdxs_iff hnd hr).2 hanom
      have hnotdf3 : r ∉ roeDf3 bt h4 df := fun h =>
        hnotdf1 ((roeDf2_sublist bt h4 df).mem ((roeDf3_sublist bt h4 df).mem h))
      have hnotdf2 : r ∉ roeDf2 bt h4 df := fun h => hnotdf1 ((roeDf2_sublist bt h4 df).mem h)
      refine Or.inr (Or.inl ⟨?_, ?_, fun h => hnotdf2 (hEto2 h)⟩)
      · intro h
        exact hnotdf3 (hKto3 (erase_or_self_sub _ h))
      · rw [hearly]
        exact List.mem_append_left _ (List.mem_append_left _ (List.mem_append_left _ hA))
    · have hisnone : (detect_unit_anomalies r.unit).isNone = true := by
        cases hdet : detect_unit_anomalies r.unit
        · rfl
        · exact absurd (by rw [hdet]; rfl) hanom
      have hdf1 : r ∈ roeDf1 df := (mem_roeDf1_iff hr).2 hisnone
      have hnA : r.idx ∉ roeAnomIdxs df := fun h => hanom ((idx_mem_anomIdxs_iff hnd hr).1 h)
      by_cases hp4 : plus4Guard bt h4 = true ∧ plus4Anomalous r = true
      · have hP : r.idx ∈ roeP4Idxs bt h4 df := (idx_mem_p4_iff hnd hr).2 ⟨hp4.1, hdf1, hp4.2⟩
        have hnotdf2 : r ∉ roeDf2 bt h4 df := by
          intro h
          rw [mem_roeDf2_iff] at h
          rw [h.2 hp4.1] at hp4
          simp at hp4
        have hnotdf3 : r ∉ roeDf3 bt h4 df := fun h => hnotdf2 ((roeDf3_sublist bt h4 df).mem h)
        refine Or.inr (Or.inl ⟨?_, ?_, fun h => hnotdf2 (hEto2 h)⟩)
        · intro h
          exact hnotdf3 (hKto3 (erase_or_self_sub _ h))
        · rw [hearly]
          exact List.mem_append_left _ (List.mem_append_left _ (List.mem_append_right _ hP))
      · have hdf2 : r ∈ roeDf2 bt h4 df := by
          refine mem_roeDf2_iff.2 ⟨hdf1, fun hg => ?_⟩
          by_contra hne
          exact hp4 ⟨hg, by revert hne; cases plus4Anomalous r <;> simp⟩
        have hnP : r.idx ∉ roeP4Idxs bt h4 df := by
          intro h
          obtain ⟨hg, _, ha⟩ := (idx_mem_p4_iff hnd hr).1 h
          exact hp4 ⟨hg, ha⟩
        by_cases hE : r.idx ∈ roeExclIdxs bt h4 df
        · have hnotdf3 : r ∉ roeDf3 bt h4 df := fun h => ((mem_roeDf3_iff hdf2).1 h) hE
          refine Or.inr (Or.inr ⟨?_, ?_, hE⟩)
          · intro h
            exact hnotdf3 (hKto3 (erase_or_self_sub _ h))
          · intro h
            rcases List.mem_append.1 h with h | h
            · rw [hearly] at h
              rcases List.mem_append.1 h with h | h
              · rcases List.mem_append.1 h with h | h
                · exact hnA h
                · exact hnP h
              · exact hnotdf3 (hRto3 h)
            · have heq := List.mem_singleton.1 h
              have hrr : rec = r := idx_inj hnd hrecdf hr heq.symm
              rw [hrr] at hrec
              exact hnotdf3 hrec
        · have hdf3 : r ∈ roeDf3 bt h4 df := (mem_roeDf3_iff hdf2).2 hE
          have hKR : r.idx ∈ roeKeep0 bt h4 df ∨ r.idx ∈ roeRemove0 bt h4 df :=
            streetDedup_exhaustive _ _ hdf3 (hst r hr)
          by_cases heq : r.idx = rec.idx
          · -- r is the moved record
            refine Or.inr (Or.inl ⟨?_, ?_, hE⟩)
            · rw [heq]
              exact oneOff_moved_not_in_keep hK0nodup rec.idx
            · refine List.mem_append_right _ ?_
              rw [heq]
              exact List.mem_singleton_self rec.idx
          · rcases hKR with hK0 | hR0
            · have hnR0 : r.idx ∉ roeRemove0 bt h4 df := fun h =>
                streetDedup_disjoint _ _ hnd3 hK0 h
              refine Or.inl ⟨?_, ?_, hE⟩
              · exact mem_erase_or_self_of_ne _ heq hK0
              · intro h
                rcases List.mem_append.1 h with h | h
                · rw [hearly] at h
                  rcases List.mem_append.1 h with h | h
                  · rcases List.mem_append.1 h with h | h
                    · exact hnA h
                    · exact hnP h
                  · exact hnR0 h
                · exact heq (List.mem_singleton.1 h)
            · have hnK0 : r.idx ∉ roeKeep0 bt h4 df := fun h =>
                streetDedup_disjoint _ _ hnd3 h hR0
              refine Or.inr (Or.inl ⟨?_, ?_, hE⟩)
              · intro h
                exact hnK0 (erase_or_self_sub _ h)
              · refine List.mem_append_left _ ?_
                rw [hearly]
                exact List.mem_append_right _ hR0

lemma process_keep_sub {bt : String} {h4 : Bool} {df : List Record} {i : Nat}
    (h : i ∈ (process_roe_subname bt h4 df).1) : ∃ r ∈ df, r.idx = i := by
  rw [process_roe_subname_eq] at h
  have h' : i ∈ (oneOff (roeDf3 bt h4 df) (roeKeep0 bt h4 df)
      (roeRemovedEarly bt h4 df ++ roeRemove0 bt h4 df)).1 := h
  rcases oneOff_cases (roeDf3 bt h4 df) (roeKeep0 bt h4 df)
      (roeRemovedEarly bt h4 df ++ roeRemove0 bt h4 df) with hoo | ⟨rec, reason, hrec, hoo⟩ <;>
    rw [hoo] at h'
  · obtain ⟨r, hr, hri⟩ := roeKeep0_sub h'
    exact ⟨r, (roeDf3_sublist_df bt h4 df).mem hr, hri⟩
  · obtain ⟨r, hr, hri⟩ := roeKeep0_sub (erase_or_self_sub _ h')
    exact ⟨r, (roeDf3_sublist_df bt h4 df).mem hr, hri⟩

lemma roeAnomIdxs_sub {df : List Record} {i : Nat} (h : i ∈ roeAnomIdxs df) :
    ∃ r ∈ df, r.idx = i := by
  obtain ⟨r, hr, hri⟩ := List.mem_map.1 h
  exact ⟨r, (List.mem_filter.1 hr).1, hri⟩

lemma roeP4Idxs_sub {bt : String} {h4 : Bool} {df : List Record} {i : Nat}
    (h : i ∈ roeP4Idxs bt h4 df) : ∃ r ∈ df, r.idx = i := by
  unfold roeP4Idxs stage2 at h
  split at h
  · obtain ⟨r, hr, hri⟩ := List.mem_map.1 h
    exact ⟨r, (roeDf1_sublist df).mem ((List.mem_filter.1 hr).1), hri⟩
  · exact absurd h (List.not_mem_nil i)

lemma process_remove_sub {bt : String} {h4 : Bool} {df : List Record} {i : Nat}
    (h : i ∈ (process_roe_subname bt h4 df).2.1) : ∃ r ∈ df, r.idx = i := by
  rw [process_roe_subname_eq] at h
  have h' : i ∈ (oneOff (roeDf3 bt h4 df) (roeKeep0 bt h4 df)
      (roeRemovedEarly bt h4 df ++ roeRemove0 bt h4 df)).2.1 := h
  have hbase : i ∈ roeRemovedEarly bt h4 df ++ roeRemove0 bt h4 df → ∃ r ∈ df, r.idx = i := by
    intro hb
    rcases List.mem_append.1 hb with hb | hb
    · rcases List.mem_append.1 hb with hb | hb
      · exact roeAnomIdxs_sub hb
      · exact roeP4Idxs_sub hb
    · obtain ⟨r, hr, hri⟩ := roeRemove0_sub hb
      exact ⟨r, (roeDf3_sublist_df bt h4 df).mem hr, hri⟩
  rcases oneOff_cases (roeDf3 bt h4 df) (roeKeep0 bt h4 df)
      (roeRemovedEarly bt h4 df ++ roeRemove0 bt h4 df) with hoo | ⟨rec, reason, hrec, hoo⟩ <;>
    rw [hoo] at h'
  · exact hbase h'
  · rcases List.mem_append.1 h' with h' | h'
    · exact hbase h'
    · rw [List.mem_singleton.1 h']
      exact ⟨rec, (roeDf3_sublist_df bt h4 df).mem hrec, rfl⟩

/-- Counterexample to C1 as stated: in a concrete MDU community, the
record excluded by the stage-5 majority-format rule (index 2) ends in
neither the keep set nor the remove set. -/
theorem claim_C1_counterexample :
    (⟨2, some "1 Main", some "# 5", none, none, "Residential - MDU", "A", none⟩ : Record) ∈ c1df ∧
    2 ∉ (process_roe_subname "Residential - MDU" false c1df).1 ∧
    2 ∉ (process_roe_subname "Residential - MDU" false c1df).2.1 := by
  decide

/-- Claim C1 (amended): for a community with unique record indices and
non-missing street addresses (the documented input contract), keep and
remove are disjoint, and every input record ends in exactly one of keep,
remove, or the stage-5 MDU majority-format exclusion set — so records
excluded at that intermediate stage end in neither keep nor remove. -/
theorem claim_C1_process_partition (bt : String) (h4 : Bool) (df : List Record)
    (hnd : (df.map Record.idx).Nodup)
    (hst : ∀ r ∈ df, r.street.isSome = true) :
    (∀ i, i ∈ (process_roe_subname bt h4 df).1 → i ∉ (process_roe_subname bt h4 df).2.1) ∧
    (∀ r ∈ df,
      (r.idx ∈ (process_roe_subname bt h4 df).1 ∧
        r.idx ∉ (process_roe_subname bt h4 df).2.1 ∧ r.idx ∉ roeExclIdxs bt h4 df) ∨
      (r.idx ∉ (process_roe_subname bt h4 df).1 ∧
        r.idx ∈ (process_roe_subname bt h4 df).2.1 ∧ r.idx ∉ roeExclIdxs bt h4 df) ∨
      (r.idx ∉ (process_roe_subname bt h4 df).1 ∧
        r.idx ∉ (process_roe_subname bt h4 df).2.1 ∧ r.idx ∈ roeExclIdxs bt h4 df)) := by
  have hcl := community_classification bt h4 df hnd hst
  refine ⟨?_, hcl⟩
  intro i hiK hiR
  obtain ⟨r, hr, hri⟩ := process_keep_sub hiK
  rw [← hri] at hiK hiR
  rcases hcl r hr with ⟨_, h2, _⟩ | ⟨h1, _, _⟩ | ⟨h1, _, _⟩
  · exact h2 hiR
  · exact h1 hiK
  · exact h1 hiK

/-- Witness for the amended C1 at the concrete MDU community `c1df`. -/
theorem claim_C1_process_partition_witness :
    (c1df.map Record.idx).Nodup ∧
    (∀ i, i ∈ (process_roe_subname "Residential - MDU" false c1df).1 →
      i ∉ (process_roe_subname "Residential - MDU" false c1df).2.1) ∧
    (∀ r ∈ c1df,
      (r.idx ∈ (process_roe_subname "Residential - MDU" false c1df).1 ∧
        r.idx ∉ (process_roe_subname "Residential - MDU" false c1df).2.1 ∧
        r.idx ∉ roeExclIdxs "Residential - MDU" false c1df) ∨
      (r.idx ∉ (process_roe_subname "Residential - MDU" false c1df).1 ∧
        r.idx ∈ (process_roe_subname "Residential - MDU" false c1df).2.1 ∧
        r.idx ∉ roeExclIdxs "Residential - MDU" false c1df) ∨
      (r.idx ∉ (process_roe_subname "Residential - MDU" false c1df).1 ∧
        r.idx ∉ (process_roe_subname "Residential - MDU" false c1df).2.1 ∧
        r.idx ∈ roeExclIdxs "Residential - MDU" false c1df)) := by
  refine ⟨by decide, ?_⟩
  exact claim_C1_process_partition "Residential - MDU" false c1df (by decide) (by decide)

lemma plus4Guard_iff (bt : String) (h4 : Bool) :
    plus4Guard bt h4 = true ↔
      (bt = "HOA" ∨ bt = "Residential - MDU" ∨ bt = "SFA") ∧ h4 = true := by
  simp [plus4Guard, or_assoc]

lemma plus4Anomalous_iff (r : Record) :
    plus4Anomalous r = true ↔
      ∃ p, r.plus4 = some p ∧
        (((strTrim p).length = 5 ∧ strAllDigits (strTrim p) = true) ∨
          strTrim p = (match r.zip with | some z => strTrim z | none => "")) := by
  cases hp : r.plus4 with
  | none => simp [plus4Anomalous, hp]
  | some p => simp [plus4Anomalous, hp]

lemma oversizeFlags_src {df2 : List Record} {fl : Nat × String}
    (h : fl ∈ oversizeFlags df2) : ∃ r ∈ df2, r.idx = fl.1 := by
  unfold oversizeFlags at h
  split at h
  · obtain ⟨r, hr, hri⟩ := List.mem_map.1 h
    exact ⟨r, hr, by rw [← hri]⟩
  · exact absurd h (List.not_mem_nil fl)

lemma mduFlags_src {bt : String} {df2 : List Record} {fl : Nat × String}
    (h : fl ∈ (mduStage bt df2).2) : ∃ r ∈ df2, r.idx = fl.1 := by
  simp only [mduStage] at h
  split at h
  · split at h
    · obtain ⟨r, hr, hri⟩ := List.mem_map.1 h
      exact ⟨r, (List.mem_filter.1 hr).1, by rw [← hri]⟩
    · exact absurd h (List.not_mem_nil fl)
  · exact absurd h (List.not_mem_nil fl)

lemma postDedupFlags_src {bt : String} {df2 df3 : List Record} {keep rm : List Nat}
    {fl : Nat × String} (h : fl ∈ postDedupFlags bt df2 df3 keep rm) :
    ∃ r ∈ df3, r.idx = fl.1 := by
  simp only [postDedupFlags] at h
  split at h
  · split at h
    · split at h
      · obtain ⟨r, hr, hri⟩ := List.mem_map.1 h
        exact ⟨r, (List.mem_filter.1 hr).1, by rw [← hri]⟩
      · exact absurd h (List.not_mem_nil fl)
    · exact absurd h (List.not_mem_nil fl)
  · exact absurd h (List.not_mem_nil fl)

lemma process_flag_src {bt : String} {h4 : Bool} {df : List Record} {fl : Nat × String}
    (h : fl ∈ (process_roe_subname bt h4 df).2.2) :
    ∃ r ∈ roeDf2 bt h4 df, r.idx = fl.1 := by
  rw [process_roe_subname_eq] at h
  have h' : fl ∈ oversizeFlags (roeDf2 bt h4 df) ++ roeMduFlags bt h4 df ++
      roeStage7Flags bt h4 df ++ (roeOneOff bt h4 df).2.2 := h
  rcases List.mem_append.1 h' with h' | h'
  · rcases List.mem_append.1 h' with h' | h'
    · rcases List.mem_append.1 h' with h' | h'
      · exact oversizeFlags_src h'
      · obtain ⟨r, hr, hri⟩ := mduFlags_src h'
        exact ⟨r, hr, hri⟩
    · obtain ⟨r, hr, hri⟩ := postDedupFlags_src h'
      exact ⟨r, (roeDf3_sublist bt h4 df).mem hr, hri⟩
  · rcases oneOff_cases (roeDf3 bt h4 df) (roeKeep0 bt h4 df)
        (roeRemovedEarly bt h4 df ++ roeRemove0 bt h4 df) with hoo | ⟨rec, reason, hrec, hoo⟩
    · have : (roeOneOff bt h4 df).2.2 = [] := by rw [roeOneOff, hoo]
      rw [this] at h'
      exact absurd h' (List.not_mem_nil fl)
    · have : (roeOneOff bt h4 df).2.2 = [(rec.idx, reason)] := by rw [roeOneOff, hoo]
      rw [this] at h'
      rw [List.mem_singleton.1 h']
      exact ⟨rec, (roeDf3_sublist bt h4 df).mem hrec, rfl⟩

/-- Claim C6: stage 2 removes a stage-2-input record iff the building
category is HOA, Residential-MDU or SFA, the `Plus 4 Code` column exists
and the value is non-missing, and the trimmed extension is a 5-digit
numeric string or equals the record's (trimmed) postal code; such
records are never flagged by the engine, and records of any other
category are never removed by this stage. -/
theorem claim_C6_plus4_stage (bt : String) (h4 : Bool) (df : List Record)
    (hnd : (df.map Record.idx).Nodup) :
    ∀ r ∈ roeDf1 df,
      (r.idx ∈ roeP4Idxs bt h4 df ↔
        ((bt = "HOA" ∨ bt = "Residential - MDU" ∨ bt = "SFA") ∧ h4 = true ∧
          ∃ p, r.plus4 = some p ∧
            (((strTrim p).length = 5 ∧ strAllDigits (strTrim p) = true) ∨
              strTrim p = (match r.zip with | some z => strTrim z | none => "")))) ∧
      (r.idx ∈ roeP4Idxs bt h4 df →
        ∀ fl ∈ (process_roe_subname bt h4 df).2.2, fl.1 ≠ r.idx) := by
  intro r hr1
  have hr : r ∈ df := (roeDf1_sublist df).mem hr1
  have hiff : r.idx ∈ roeP4Idxs bt h4 df ↔
      plus4Guard bt h4 = true ∧ plus4Anomalous r = true := by
    rw [idx_mem_p4_iff hnd hr]
    constructor
    · rintro ⟨a, _, c⟩
      exact ⟨a, c⟩
    · rintro ⟨a, c⟩
      exact ⟨a, hr1, c⟩
  constructor
  · rw [hiff, plus4Guard_iff, plus4Anomalous_iff]
    constructor
    · rintro ⟨⟨a, b⟩, c⟩
      exact ⟨a, b, c⟩
    · rintro ⟨a, b, c⟩
      exact ⟨⟨a, b⟩, c⟩
  · intro hP fl hfl heq
    obtain ⟨r2, hr2, hid⟩ := process_flag_src hfl
    have hr2r : r2 = r := idx_inj hnd ((roeDf2_sublist_df bt h4 df).mem hr2) hr (by rw [hid, heq])
    rw [hr2r] at hr2
    rw [mem_roeDf2_iff] at hr2
    obtain ⟨hg, _, hanom⟩ := (idx_mem_p4_iff hnd hr).1 hP
    rw [hr2.2 hg] at hanom
    simp at hanom

/-- Concrete HOA record whose extension is a malformed 5-digit value. -/
def c6rec : Record :=
  ⟨0, some "1 Main", some "1", some "12345", some "99999", "HOA", "W", none⟩

def c6df : List Record := [c6rec]

/-- Witness for C6 at a concrete HOA community. -/
theorem claim_C6_plus4_stage_witness :
    (c6df.map Record.idx).Nodup ∧
    c6rec ∈ roeDf1 c6df ∧
    ((0 ∈ roeP4Idxs "HOA" true c6df ↔
        (("HOA" = "HOA" ∨ "HOA" = "Residential - MDU" ∨ "HOA" = "SFA") ∧ true = true ∧
          ∃ p, (some "12345" : Option String) = some p ∧
            (((strTrim p).length = 5 ∧ strAllDigits (strTrim p) = true) ∨
              strTrim p = strTrim "99999"))) ∧
      (0 ∈ roeP4Idxs "HOA" true c6df →
        ∀ fl ∈ (process_roe_subname "HOA" true c6df).2.2, fl.1 ≠ 0)) :=
  ⟨by decide, by decide,
   claim_C6_plus4_stage "HOA" true c6df (by decide) c6rec (by decide)⟩

/-! Claim C8: the spacer/count shape of `add_spacing_to_roe`. -/

/-- Expected presentation of one community block: the first row carries
the unit count `n`, the remaining rows carry none. -/
def blockOut (n : Nat) : List Record → List Spaced
  | [] => []
  | r :: rs => Spaced.row r (some n) :: rs.map (fun x => Spaced.row x none)

/-- Expected output of `add_spacing_to_roe` on a block-structured ROE
tab: the communities' blocks separated by single spacer rows. -/
def expectedSpaced (counts : String → Nat) (bs : List (String × List Record)) : List Spaced :=
  ((bs.map (fun p => blockOut (counts p.1) p.2)).intersperse [Spaced.blank]).flatten

lemma addSpacingAux_run (counts : String → Nat) (s : String) :
    ∀ (l tail : List Record), (∀ r ∈ l, r.subname = s) →
    addSpacingAux counts (some s) false (l ++ tail) =
      l.map (fun r => Spaced.row r none) ++ addSpacingAux counts (some s) false tail := by
  intro l
  induction l with
  | nil =>
    intro tail _
    simp
  | cons r rs ih =>
    intro tail h
    have hr : r.subname = s := h r (List.mem_cons_self r rs)
    simp only [List.cons_append, addSpacingAux, hr, decide_eq_true_eq]
    simp [ih tail (fun x hx => h x (List.mem_cons_of_mem r hx))]

lemma addSpacingAux_blocks (counts : String → Nat) :
    ∀ (bs : List (String × List Record)) (t : String),
    (∀ p ∈ bs, p.2 ≠ []) → (∀ p ∈ bs, ∀ r ∈ p.2, r.subname = p.1) →
    (∀ p ∈ bs, 0 < counts p.1) → (∀ p ∈ bs, p.1 ≠ t) →
    (bs.map Prod.fst).Nodup →
    addSpacingAux counts (some t) false ((bs.map Prod.snd).flatten) =
      (bs.map (fun p => Spaced.blank :: blockOut (counts p.1) p.2)).flatten := by
  intro bs
  induction bs with
  | nil =>
    intro t _ _ _ _ _
    simp [addSpacingAux]
  | cons p0 rest ih =>
    intro t hne hsub hpos hneq hnd
    obtain ⟨r0, rs, hp0⟩ : ∃ r0 rs, p0.2 = r0 :: rs := by
      cases hc : p0.2 with
      | nil => exact absurd hc (hne p0 (List.mem_cons_self p0 rest))
      | cons a b => exact ⟨a, b, rfl⟩
    have hsub0 : ∀ r ∈ p0.2, r.subname = p0.1 := hsub p0 (List.mem_cons_self p0 rest)
    have hr0 : r0.subname = p0.1 := hsub0 r0 (by rw [hp0]; exact List.mem_cons_self r0 rs)
    have hteq : decide (t = r0.subname) = false := by
      rw [hr0]
      exact decide_eq_false (fun he => hneq p0 (List.mem_cons_self p0 rest) he.symm)
    have hcnt : decide (0 < counts r0.subname) = true := by
      rw [hr0]
      exact decide_eq_true (hpos p0 (List.mem_cons_self p0 rest))
    simp only [List.map_cons, List.flatten_cons, hp0, List.cons_append, addSpacingAux, hteq,
      Bool.not_false, Bool.or_true, Bool.true_and, hcnt, if_pos]
    have hrun := addSpacingAux_run counts p0.1 rs ((rest.map Prod.snd).flatten)
      (fun x hx => hsub0 x (by rw [hp0]; exact List.mem_cons_of_mem r0 hx))
    rw [hr0, hrun]
    have hrest := ih p0.1 (fun p hp => hne p (List.mem_cons_of_mem p0 hp))
      (fun p hp => hsub p (List.mem_cons_of_mem p0 hp))
      (fun p hp => hpos p (List.mem_cons_of_mem p0 hp))
      (fun p hp he => ((List.nodup_cons.1 hnd).1) (he ▸ List.mem_map_of_mem Prod.fst hp))
      (List.nodup_cons.1 hnd).2
    rw [hrest]
    simp [blockOut]

lemma flatten_intersperse_blank :
    ∀ (x : List Spaced) (xs : List (List Spaced)),
    ((x :: xs).intersperse [Spaced.blank]).flatten =
      x ++ (xs.map (fun b => Spaced.blank :: b)).flatten := by
  intro x xs
  induction xs generalizing x with
  | nil => simp
  | cons y ys ih =>
    rw [List.intersperse_cons_cons]
    simp only [List.flatten_cons, List.map_cons]
    rw [ih y]
    simp

lemma subnameCount_append (a b : List Record) (s : String) :
    subnameCount (a ++ b) s = subnameCount a s + subnameCount b s := by
  unfold subnameCount
  rw [List.filter_append, List.length_append]

lemma subnameCount_zero {l : List Record} {s : String} (h : ∀ r ∈ l, r.subname ≠ s) :
    subnameCount l s = 0 := by
  unfold subnameCount
  rw [List.filter_eq_nil_iff.2 (fun r hr => by simp [h r hr])]
  rfl

lemma subnameCount_self {l : List Record} {s : String} (h : ∀ r ∈ l, r.subname = s) :
    subnameCount l s = l.length := by
  unfold subnameCount
  rw [List.filter_eq_self.2 (fun r hr => by simp [h r hr])]

lemma flatten_subnameCount_zero :
    ∀ (bs : List (String × List Record)) (s : String),
    (∀ p ∈ bs, ∀ r ∈ p.2, r.subname ≠ s) →
    subnameCount ((bs.map Prod.snd).flatten) s = 0 := by
  intro bs
  induction bs with
  | nil =>
    intro s _
    simp [subnameCount]
  | cons q rest ih =>
    intro s h
    simp only [List.map_cons, List.flatten_cons]
    rw [subnameCount_append, subnameCount_zero (h q (List.mem_cons_self q rest)),
      ih s (fun p hp => h p (List.mem_cons_of_mem q hp))]

lemma counts_blocks :
    ∀ (bs : List (String × List Record)),
    (∀ p ∈ bs, ∀ r ∈ p.2, r.subname = p.1) → (bs.map Prod.fst).Nodup →
    ∀ p ∈ bs, subnameCount ((bs.map Prod.snd).flatten) p.1 = p.2.length := by
  intro bs
  induction bs with
  | nil =>
    intro _ _ p hp
    exact absurd hp (List.not_mem_nil p)
  | cons q rest ih =>
    intro hsub hnd p hp
    have hqnotin : q.1 ∉ rest.map Prod.fst := (List.nodup_cons.1 hnd).1
    simp only [List.map_cons, List.flatten_cons]
    rw [subnameCount_append]
    rcases List.mem_cons.1 hp with hpq | hpr
    · rw [hpq]
      rw [subnameCount_self (hsub q (List.mem_cons_self q rest))]
      rw [flatten_subnameCount_zero rest q.1 ?hz]
      case hz =>
        intro p' hp' r hr he
        rw [hsub p' (List.mem_cons_of_mem q hp') r hr] at he
        exact hqnotin (he ▸ List.mem_map_of_mem Prod.fst hp')
      rfl
    · have hne : q.1 ≠ p.1 := by
        intro he
        exact hqnotin (he ▸ List.mem_map_of_mem Prod.fst hpr)
      rw [subnameCount_zero (fun r hr he =>
        hne (by rw [← hsub q (List.mem_cons_self q rest) r hr, he]))]
      rw [ih (fun p' hp' => hsub p' (List.mem_cons_of_mem q hp')) (List.nodup_cons.1 hnd).2 p hpr]
      exact Nat.zero_add _

/-- Claim C8: for a (sorted, hence block-structured) ROE tab — a
concatenation of per-community blocks with pairwise distinct community
names — `add_spacing_to_roe` emits, for each community, its kept-record
count (computed from the tab before spacer insertion) on the first row
and no count on subsequent rows, with exactly one spacer row between
consecutive communities. -/
theorem claim_C8_spacing (bs : List (String × List Record))
    (hne : ∀ p ∈ bs, p.2 ≠ [])
    (hsub : ∀ p ∈ bs, ∀ r ∈ p.2, r.subname = p.1)
    (hdist : (bs.map Prod.fst).Nodup) :
    (∀ p ∈ bs, subnameCount ((bs.map Prod.snd).flatten) p.1 = p.2.length) ∧
    add_spacing_to_roe ((bs.map Prod.snd).flatten) =
      expectedSpaced (subnameCount ((bs.map Prod.snd).flatten)) bs := by
  have hcounts := counts_blocks bs hsub hdist
  refine ⟨hcounts, ?_⟩
  cases hbs : bs with
  | nil => simp [add_spacing_to_roe, addSpacingAux, expectedSpaced]
  | cons p0 rest =>
    subst hbs
    have hpos : ∀ p ∈ p0 :: rest, 0 < subnameCount (((p0 :: rest).map Prod.snd).flatten) p.1 := by
      intro p hp
      rw [hcounts p hp]
      exact List.length_pos.2 (hne p hp)
    obtain ⟨r0, rs, hp0⟩ : ∃ r0 rs, p0.2 = r0 :: rs := by
      cases hc : p0.2 with
      | nil => exact absurd hc (hne p0 (List.mem_cons_self p0 rest))
      | cons a b => exact ⟨a, b, rfl⟩
    have hsub0 : ∀ r ∈ p0.2, r.subname = p0.1 := hsub p0 (List.mem_cons_self p0 rest)
    have hr0 : r0.subname = p0.1 := hsub0 r0 (by rw [hp0]; exact List.mem_cons_self r0 rs)
    unfold add_spacing_to_roe
    set cnts := subnameCount (((p0 :: rest).map Prod.snd).flatten) with hc
    have hflat : ((p0 :: rest).map Prod.snd).flatten =
        r0 :: (rs ++ (rest.map Prod.snd).flatten) := by
      simp [hp0]
    have hcnt : decide (0 < cnts r0.subname) = true := by
      rw [hr0, hc]
      exact decide_eq_true (hpos p0 (List.mem_cons_self p0 rest))
    have hfirst : addSpacingAux cnts none true (r0 :: (rs ++ (rest.map Prod.snd).flatten)) =
        Spaced.row r0 (some (cnts r0.subname)) ::
          addSpacingAux cnts (some r0.subname) false (rs ++ (rest.map Prod.snd).flatten) := by
      simp only [addSpacingAux, hcnt]
      simp
    have hrun := addSpacingAux_run cnts p0.1 rs ((rest.map Prod.snd).flatten)
      (fun x hx => hsub0 x (by rw [hp0]; exact List.mem_cons_of_mem r0 hx))
    have hrest := addSpacingAux_blocks cnts
      rest p0.1 (fun p hp => hne p (List.mem_cons_of_mem p0 hp))
      (fun p hp => hsub p (List.mem_cons_of_mem p0 hp))
      (fun p hp => by rw [hc]; exact hpos p (List.mem_cons_of_mem p0 hp))
      (fun p hp he => ((List.nodup_cons.1 hdist).1) (he ▸ List.mem_map_of_mem Prod.fst hp))
      (List.nodup_cons.1 hdist).2
    rw [hflat, hfirst, hr0, hrun, hrest]
    unfold expectedSpaced
    simp only [List.map_cons]
    rw [flatten_intersperse_blank]
    simp [blockOut, hp0, Function.comp]
    rfl

/-- Concrete sorted ROE tab: a 12-record community followed by a
1-record community. -/
def c8bs : List (String × List Record) :=
  [("A", (List.range 12).map (fun n => ⟨n, none, none, none, none, "SFA", "A", none⟩)),
   ("B", [⟨12, none, none, none, none, "SFA", "B", none⟩])]

/-- Witness for C8: the 12-kept-record community's first row carries
unit count 12. -/
theorem claim_C8_spacing_witness :
    (∀ p ∈ c8bs, p.2 ≠ []) ∧
    subnameCount ((c8bs.map Prod.snd).flatten) "A" = 12 ∧
    ((∀ p ∈ c8bs, subnameCount ((c8bs.map Prod.snd).flatten) p.1 = p.2.length) ∧
      add_spacing_to_roe ((c8bs.map Prod.snd).flatten) =
        expectedSpaced (subnameCount ((c8bs.map Prod.snd).flatten)) c8bs) :=
  ⟨by decide, by decide, claim_C8_spacing c8bs (by decide) (by decide) (by decide)⟩

/-! Claim C2: the pipeline-level category partition. -/

lemma mem_publicTab {input : List Record} {r : Record} :
    r ∈ publicTab input ↔ r ∈ input ∧ r.bt = "Residential" := by
  unfold publicTab
  rw [List.mem_filter]
  simp

lemma mem_commercialTab {input : List Record} {r : Record} :
    r ∈ commercialTab input ↔ r ∈ input ∧ r.bt = "Commercial" := by
  unfold commercialTab
  rw [List.mem_filter]
  simp

lemma mem_competitiveTab {input : List Record} {r : Record} :
    r ∈ competitiveTab input ↔ r ∈ input ∧ r.bt = "Competitive" := by
  unfold competitiveTab
  rw [List.mem_filter]
  simp

lemma mem_otherTab {input : List Record} {r : Record} :
    r ∈ otherTab input ↔ r ∈ input ∧ r.bt = "Other" := by
  unfold otherTab
  rw [List.mem_filter]
  simp

lemma mem_roeCandidates {input : List Record} {r : Record} :
    r ∈ roeCandidates input ↔
      r ∈ input ∧ (r.bt = "Residential - MDU" ∨ r.bt = "SFA" ∨ r.bt = "HOA" ∨
        r.bt = "Mobile") := by
  unfold roeCandidates
  rw [List.mem_filter]
  simp [or_assoc]

lemma mem_communityRecs {roe : List Record} {k : String × String} {r : Record} :
    r ∈ communityRecs roe k ↔ r ∈ roe ∧ r.subname = k.1 ∧ r.bt = k.2 := by
  unfold communityRecs
  rw [List.mem_filter]
  simp

lemma communityInput_perm (hsn : Bool) (roe : List Record) (k : String × String) :
    (communityInput hsn roe k).Perm (communityRecs roe k) := by
  unfold communityInput orderedCommunity
  split
  · split
    · exact sortByRel_perm _ _
    · exact sortByRel_perm _ _
  · exact List.Perm.refl _

lemma mem_communityInput {hsn : Bool} {roe : List Record} {k : String × String} {r : Record} :
    r ∈ communityInput hsn roe k ↔ r ∈ communityRecs roe k :=
  (communityInput_perm hsn roe k).mem_iff

lemma mem_communityKeys {roe : List Record} {k : String × String} :
    k ∈ communityKeys roe ↔ ∃ r ∈ roe, (r.subname, r.bt) = k := by
  unfold communityKeys
  rw [mem_sortByRel, mem_firstOccs, List.mem_map]

lemma communityInput_sub {hsn : Bool} {roe : List Record} {k : String × String} {r : Record}
    (h : r ∈ communityInput hsn roe k) : r ∈ roe :=
  (mem_communityRecs.1 (mem_communityInput.1 h)).1

lemma communityInput_idx_nodup (hsn : Bool) (input : List Record) (k : String × String)
    (hnd : (input.map Record.idx).Nodup) :
    ((communityInput hsn (roeCandidates input) k).map Record.idx).Nodup := by
  have h1 : ((communityRecs (roeCandidates input) k).map Record.idx).Nodup :=
    nodup_idx_of_sublist ((List.filter_sublist _).trans (List.filter_sublist input)) hnd
  exact ((communityInput_perm hsn (roeCandidates input) k).map Record.idx).nodup_iff.2 h1

lemma mem_locByIdx {roe : List Record} {idxs : List Nat} {r : Record} :
    r ∈ locByIdx roe idxs ↔ r ∈ roe ∧ r.idx ∈ idxs := by
  unfold locByIdx
  rw [List.mem_flatMap]
  constructor
  · rintro ⟨i, hi, hr⟩
    have := List.mem_filter.1 hr
    refine ⟨this.1, ?_⟩
    rw [of_decide_eq_true this.2]
    exact hi
  · rintro ⟨hr, hi⟩
    exact ⟨r.idx, hi, List.mem_filter.2 ⟨hr, by simp⟩⟩

/-- Generic bridge: membership of a record's index in a per-community
list concatenated over all community keys reduces to the record's own
community, provided each per-key list only mentions that community's
records. -/
lemma flatten_over_keys_mem (hsn : Bool) {input : List Record}
    (hnd : (input.map Record.idx).Nodup) (F : String × String → List Nat)
    (hF : ∀ k i, i ∈ F k →
      ∃ r' ∈ communityInput hsn (roeCandidates input) k, r'.idx = i)
    {r : Record} (hr : r ∈ roeCandidates input) :
    r.idx ∈ ((communityKeys (roeCandidates input)).map F).flatten ↔
      r.idx ∈ F (r.subname, r.bt) := by
  constructor
  · intro h
    obtain ⟨l, hl, hi⟩ := List.mem_flatten.1 h
    obtain ⟨k, hk, hlk⟩ := List.mem_map.1 hl
    rw [← hlk] at hi
    obtain ⟨r', hr', hri⟩ := hF k r.idx hi
    have hr'roe : r' ∈ roeCandidates input := communityInput_sub hr'
    have hrr : r' = r := idx_inj hnd ((List.filter_sublist input).mem hr'roe)
      ((List.filter_sublist input).mem hr) hri
    have hmemk := mem_communityRecs.1 (mem_communityInput.1 hr')
    rw [hrr] at hmemk
    have hkeq : (r.subname, r.bt) = k := by
      obtain ⟨_, h1, h2⟩ := hmemk
      rw [h1, h2]
    rw [hkeq]
    rw [hrr] at hri
    exact hi
  · intro h
    have hkey : (r.subname, r.bt) ∈ communityKeys (roeCandidates input) :=
      mem_communityKeys.2 ⟨r, hr, rfl⟩
    exact List.mem_flatten.2 ⟨F (r.subname, r.bt), List.mem_map_of_mem F hkey, h⟩

lemma flatten_over_keys_not_mem (hsn : Bool) {input : List Record}
    (hnd : (input.map Record.idx).Nodup) (F : String × String → List Nat)
    (hF : ∀ k i, i ∈ F k →
      ∃ r' ∈ communityInput hsn (roeCandidates input) k, r'.idx = i)
    {r : Record} (hr : r ∈ input) (hnr : r ∉ roeCandidates input) :
    r.idx ∉ ((communityKeys (roeCandidates input)).map F).flatten := by
  intro h
  obtain ⟨l, hl, hi⟩ := List.mem_flatten.1 h
  obtain ⟨k, hk, hlk⟩ := List.mem_map.1 hl
  rw [← hlk] at hi
  obtain ⟨r', hr', hri⟩ := hF k r.idx hi
  have hr'roe : r' ∈ roeCandidates input := communityInput_sub hr'
  have hrr : r' = r := idx_inj hnd ((List.filter_sublist input).mem hr'roe) hr hri
  rw [hrr] at hr'roe
  exact hnr hr'roe

/-- Counterexample to C2 as stated: in a concrete input, the MDU
record excluded at the stage-5 majority-format stage (index 2) is a
member of none of the six category outputs. -/
theorem claim_C2_counterexample :
    (⟨2, some "1 Main", some "# 5", none, none, "Residential - MDU", "A", none⟩ : Record)
      ∈ c1df ∧
    memCount ⟨2, some "1 Main", some "# 5", none, none, "Residential - MDU", "A", none⟩
      (sixTabs false false c1df) = 0 := by
  decide

/-- Claim C2 (amended): for inputs satisfying the documented contract
(unique record ids, non-missing street addresses, building type among
the eight known values), every record is a member of exactly one of the
six category outputs Public, Commercial, Competitive, Other, ROE(kept),
Remove — except records excluded at the MDU majority-format stage,
which are members of none of them (they appear only in Flagged). -/
theorem claim_C2_pipeline_partition (h4 hsn : Bool) (input : List Record)
    (hnd : (input.map Record.idx).Nodup)
    (hst : ∀ r ∈ input, r.street.isSome = true)
    (hbt : ∀ r ∈ input, r.bt ∈ knownBts) :
    ∀ r ∈ input,
      (r.idx ∉ pipelineExcludedIdx h4 hsn (roeCandidates input) →
        memCount r (sixTabs h4 hsn input) = 1) ∧
      (r.idx ∈ pipelineExcludedIdx h4 hsn (roeCandidates input) →
        memCount r (sixTabs h4 hsn input) = 0) := by
  intro r hr
  have hFk : ∀ (k : String × String) (i : Nat),
      i ∈ (process_roe_subname k.2 h4 (communityInput hsn (roeCandidates input) k)).1 →
      ∃ r' ∈ communityInput hsn (roeCandidates input) k, r'.idx = i :=
    fun _ _ h => process_keep_sub h
  have hFr : ∀ (k : String × String) (i : Nat),
      i ∈ (process_roe_subname k.2 h4 (communityInput hsn (roeCandidates input) k)).2.1 →
      ∃ r' ∈ communityInput hsn (roeCandidates input) k, r'.idx = i :=
    fun _ _ h => process_remove_sub h
  have hFe : ∀ (k : String × String) (i : Nat),
      i ∈ roeExclIdxs k.2 h4 (communityInput hsn (roeCandidates input) k) →
      ∃ r' ∈ communityInput hsn (roeCandidates input) k, r'.idx = i := by
    intro k i h
    obtain ⟨r', hr', hri⟩ := roeExclIdxs_sub h
    exact ⟨r', (roeDf2_sublist_df _ _ _).mem hr', hri⟩
  by_cases hroe : r ∈ roeCandidates input
  · -- ROE-candidate record: use the per-community trichotomy
    have hcin : r ∈ communityInput hsn (roeCandidates input) (r.subname, r.bt) :=
      mem_communityInput.2 (mem_communityRecs.2 ⟨hroe, rfl, rfl⟩)
    have hndc := communityInput_idx_nodup hsn input (r.subname, r.bt) hnd
    have hstc : ∀ r' ∈ communityInput hsn (roeCandidates input) (r.subname, r.bt),
        r'.street.isSome = true :=
      fun r' h => hst r' ((List.filter_sublist input).mem (communityInput_sub h))
    have htri := community_classification r.bt h4
      (communityInput hsn (roeCandidates input) (r.subname, r.bt)) hndc hstc r hcin
    have hK : r.idx ∈ roeKeepIdx h4 hsn (roeCandidates input) ↔
        r.idx ∈ (process_roe_subname r.bt h4
          (communityInput hsn (roeCandidates input) (r.subname, r.bt))).1 :=
      flatten_over_keys_mem hsn hnd _ hFk hroe
    have hR : r.idx ∈ roeRemoveIdx h4 hsn (roeCandidates input) ↔
        r.idx ∈ (process_roe_subname r.bt h4
          (communityInput hsn (roeCandidates input) (r.subname, r.bt))).2.1 :=
      flatten_over_keys_mem hsn hnd _ hFr hroe
    have hE : r.idx ∈ pipelineExcludedIdx h4 hsn (roeCandidates input) ↔
        r.idx ∈ roeExclIdxs r.bt h4
          (communityInput hsn (roeCandidates input) (r.subname, r.bt)) :=
      flatten_over_keys_mem hsn hnd _ hFe hroe
    have hRT : r ∈ roeTab h4 hsn input ↔
        r.idx ∈ roeKeepIdx h4 hsn (roeCandidates input) := by
      unfold roeTab
      rw [mem_locByIdx]
      simp [hroe]
    have hRemT : r ∈ removeTab h4 hsn input ↔
        r.idx ∈ roeRemoveIdx h4 hsn (roeCandidates input) := by
      unfold removeTab
      rw [mem_locByIdx]
      simp [hroe]
    have hbt4 := (mem_roeCandidates.1 hroe).2
    have hne1 : r.bt ≠ "Residential" := by
      rcases hbt4 with h' | h' | h' | h' <;> rw [h'] <;> decide
    have hne2 : r.bt ≠ "Commercial" := by
      rcases hbt4 with h' | h' | h' | h' <;> rw [h'] <;> decide
    have hne3 : r.bt ≠ "Competitive" := by
      rcases hbt4 with h' | h' | h' | h' <;> rw [h'] <;> decide
    have hne4 : r.bt ≠ "Other" := by
      rcases hbt4 with h' | h' | h' | h' <;> rw [h'] <;> decide
    have hnP : r ∉ publicTab input := fun h => hne1 (mem_publicTab.1 h).2
    have hnC : r ∉ commercialTab input := fun h => hne2 (mem_commercialTab.1 h).2
    have hnCp : r ∉ competitiveTab input := fun h => hne3 (mem_competitiveTab.1 h).2
    have hnO : r ∉ otherTab input := fun h => hne4 (mem_otherTab.1 h).2
    rcases htri with ⟨h1, h2, h3⟩ | ⟨h1, h2, h3⟩ | ⟨h1, h2, h3⟩
    · -- kept
      have hmRT : r ∈ roeTab h4 hsn input := hRT.2 (hK.2 h1)
      have hmRem : r ∉ removeTab h4 hsn input := fun h => h2 (hR.1 (hRemT.1 h))
      refine ⟨fun _ => ?_, fun hexc => absurd (hE.1 hexc) h3⟩
      simp [memCount, sixTabs, List.countP_cons, hnP, hnC, hnCp, hnO, hmRT, hmRem]
    · -- removed
      have hmRT : r ∉ roeTab h4 hsn input := fun h => h1 (hK.1 (hRT.1 h))
      have hmRem : r ∈ removeTab h4 hsn input := hRemT.2 (hR.2 h2)
      refine ⟨fun _ => ?_, fun hexc => absurd (hE.1 hexc) h3⟩
      simp [memCount, sixTabs, List.countP_cons, hnP, hnC, hnCp, hnO, hmRT, hmRem]
    · -- stage-5 excluded
      have hmRT : r ∉ roeTab h4 hsn input := fun h => h1 (hK.1 (hRT.1 h))
      have hmRem : r ∉ removeTab h4 hsn input := fun h => h2 (hR.1 (hRemT.1 h))
      refine ⟨fun hnexc => absurd (hE.2 h3) hnexc, fun _ => ?_⟩
      simp [memCount, sixTabs, List.countP_cons, hnP, hnC, hnCp, hnO, hmRT, hmRem]
  · -- non-ROE record
    have hnRT : r ∉ roeTab h4 hsn input := fun h => hroe (mem_locByIdx.1 h).1
    have hnRem : r ∉ removeTab h4 hsn input := fun h => hroe (mem_locByIdx.1 h).1
    have hnexcl : r.idx ∉ pipelineExcludedIdx h4 hsn (roeCandidates input) :=
      flatten_over_keys_not_mem hsn hnd _ hFe hr hroe
    have h4not : ¬(r.bt = "Residential - MDU" ∨ r.bt = "SFA" ∨ r.bt = "HOA" ∨
        r.bt = "Mobile") := fun hor => hroe (mem_roeCandidates.2 ⟨hr, hor⟩)
    have hb : r.bt = "Residential" ∨ r.bt = "Commercial" ∨ r.bt = "Competitive" ∨
        r.bt = "Other" := by
      have h8 := hbt r hr
      simp only [knownBts, List.mem_cons, List.not_mem_nil, or_false] at h8
      rcases h8 with h | h | h | h | h | h | h | h
      · exact Or.inl h
      · exact Or.inr (Or.inl h)
      · exact Or.inr (Or.inr (Or.inl h))
      · exact Or.inr (Or.inr (Or.inr h))
      · exact absurd (Or.inl h) h4not
      · exact absurd (Or.inr (Or.inl h)) h4not
      · exact absurd (Or.inr (Or.inr (Or.inl h))) h4not
      · exact absurd (Or.inr (Or.inr (Or.inr h))) h4not
    refine ⟨fun _ => ?_, fun hexc => absurd hexc hnexcl⟩
    rcases hb with h | h | h | h
    · have hm : r ∈ publicTab input := mem_publicTab.2 ⟨hr, h⟩
      have hn2 : r ∉ commercialTab input := by
        intro hx
        have hx2 := (mem_commercialTab.1 hx).2
        rw [h] at hx2
        exact absurd hx2 (by decide)
      have hn3 : r ∉ competitiveTab input := by
        intro hx
        have hx2 := (mem_competitiveTab.1 hx).2
        rw [h] at hx2
        exact absurd hx2 (by decide)
      have hn4 : r ∉ otherTab input := by
        intro hx
        have hx2 := (mem_otherTab.1 hx).2
        rw [h] at hx2
        exact absurd hx2 (by decide)
      simp [memCount, sixTabs, List.countP_cons, hm, hn2, hn3, hn4, hnRT, hnRem]
    · have hm : r ∈ commercialTab input := mem_commercialTab.2 ⟨hr, h⟩
      have hn1 : r ∉ publicTab input := by
        intro hx
        have hx2 := (mem_publicTab.1 hx).2
        rw [h] at hx2
        exact absurd hx2 (by decide)
      have hn3 : r ∉ competitiveTab input := by
        intro hx
        have hx2 := (mem_competitiveTab.1 hx).2
        rw [h] at hx2
        exact absurd hx2 (by decide)
      have hn4 : r ∉ otherTab input := by
        intro hx
        have hx2 := (mem_otherTab.1 hx).2
        rw [h] at hx2
        exact absurd hx2 (by decide)
      simp [memCount, sixTabs, List.countP_cons, hm, hn1, hn3, hn4, hnRT, hnRem]
    · have hm : r ∈ competitiveTab input := mem_competitiveTab.2 ⟨hr, h⟩
      have hn1 : r ∉ publicTab input := by
        intro hx
        have hx2 := (mem_publicTab.1 hx).2
        rw [h] at hx2
        exact absurd hx2 (by decide)
      have hn2 : r ∉ commercialTab input := by
        intro hx
        have hx2 := (mem_commercialTab.1 hx).2
        rw [h] at hx2
        exact absurd hx2 (by decide)
      have hn4 : r ∉ otherTab input := by
        intro hx
        have hx2 := (mem_otherTab.1 hx).2
        rw [h] at hx2
        exact absurd hx2 (by decide)
      simp [memCount, sixTabs, List.countP_cons, hm, hn1, hn2, hn4, hnRT, hnRem]
    · have hm : r ∈ otherTab input := mem_otherTab.2 ⟨hr, h⟩
      have hn1 : r ∉ publicTab input := by
        intro hx
        have hx2 := (mem_publicTab.1 hx).2
        rw [h] at hx2
        exact absurd hx2 (by decide)
      have hn2 : r ∉ commercialTab input := by
        intro hx
        have hx2 := (mem_commercialTab.1 hx).2
        rw [h] at hx2
        exact absurd hx2 (by decide)
      have hn3 : r ∉ competitiveTab input := by
        intro hx
        have hx2 := (mem_competitiveTab.1 hx).2
        rw [h] at hx2
        exact absurd hx2 (by decide)
      simp [memCount, sixTabs, List.countP_cons, hm, hn1, hn2, hn3, hnRT, hnRem]

/-- Concrete mixed input for the C2 witness: a Public record, a
Commercial record, and an SFA community of two records. -/
def c2wdf : List Record :=
  [⟨0, some "1 A", none, none, none, "Residential", "X", none⟩,
   ⟨1, some "2 A", none, none, none, "Commercial", "X", none⟩,
   ⟨2, some "1 Main", none, none, none, "SFA", "S", none⟩,
   ⟨3, some "1 Main", some "1", none, none, "SFA", "S", none⟩]

/-- Witness for the amended C2 at the concrete mixed input. -/
theorem claim_C2_pipeline_partition_witness :
    (c2wdf.map Record.idx).Nodup ∧
    ∀ r ∈ c2wdf,
      (r.idx ∉ pipelineExcludedIdx false false (roeCandidates c2wdf) →
        memCount r (sixTabs false false c2wdf) = 1) ∧
      (r.idx ∈ pipelineExcludedIdx false false (roeCandidates c2wdf) →
        memCount r (sixTabs false false c2wdf) = 0) :=
  ⟨by decide,
   claim_C2_pipeline_partition false false c2wdf (by decide) (by decide) (by decide)⟩

end AddressSorter
